import Mathlib

/-!
Verification development for the multiplayer IPC synchronization layer of
src/src/game/multiplayer.c.

Modelling conventions:
* C strings are modelled as `List Char` (no interior NUL bytes appear in the
  protocol paths under study).
* C `int` is modelled as `Int`; the decimal printing/parsing pair
  (`snprintf %d` / `atoi`) is modelled by `intToChars` / `atoi` below.
* The process-wide mutable state of multiplayer.c (mp_active, mp_session,
  current_turn_player, is_my_turn, pipe_handle) is gathered into an explicit
  `MpState` record that every modelled function threads through.
* The pipe transport is external: a write is modelled as an observable
  `Option (List Char)` output (the bytes handed to WriteFile), and the
  success of WriteFile as a boolean environment input `write_ok`.
* Stack buffers that the C code may leave uninitialized (player_id in the
  turn-start branch when the key is missing, json in mp_send_action when the
  action type matches no known tag) are modelled by an explicit `junk`
  parameter standing for the arbitrary uninitialized contents.
-/

namespace Multiplayer

/-- C `isspace` over the ASCII execution character set, as consulted by
`atoi` when it skips leading whitespace. -/
def isSpaceC (c : Char) : Bool :=
  c = ' ' || c = '\t' || c = '\n' || c = '\x0b' || c = '\x0c' || c = '\r'

/-- C `isdigit` over ASCII. -/
def isDigitC (c : Char) : Bool :=
  '0' ≤ c && c ≤ '9'

/-- Numeric value of an ASCII digit character. -/
def digVal (c : Char) : Nat := c.toNat - 48

/-- The ASCII digit character for a value below ten. -/
def digitChar : Nat → Char
  | 0 => '0'
  | 1 => '1'
  | 2 => '2'
  | 3 => '3'
  | 4 => '4'
  | 5 => '5'
  | 6 => '6'
  | 7 => '7'
  | 8 => '8'
  | 9 => '9'
  | _ => '0'

/-- Decimal digit string of a natural number, most significant digit first:
the digits that `snprintf %d` emits for a nonnegative value. -/
def natToDigits (n : Nat) : List Char :=
  if h : n < 10 then [digitChar n]
  else natToDigits (n / 10) ++ [digitChar (n % 10)]
termination_by n
decreasing_by exact Nat.div_lt_self (by omega) (by omega)

/-- The character sequence `snprintf %d` emits for an `int` value. -/
def intToChars (i : Int) : List Char :=
  if i < 0 then '-' :: natToDigits i.natAbs else natToDigits i.toNat

/-- The digit-accumulation loop inside C `atoi`: consume leading decimal
digits, returning the accumulated value and the unconsumed remainder. -/
def parseDigitsAcc (acc : Nat) : List Char → Nat × List Char
  | [] => (acc, [])
  | c :: cs =>
    if isDigitC c then parseDigitsAcc (acc * 10 + digVal c) cs else (acc, c :: cs)

/-- C `atoi`: skip whitespace, read an optional sign, then a run of decimal
digits (an empty run yields 0).  Used by json_get_int. -/
def atoi (s : List Char) : Int :=
  match s.dropWhile isSpaceC with
  | [] => 0
  | c :: t =>
    if c = '-' then - (((parseDigitsAcc 0 t).1 : Nat) : Int)
    else if c = '+' then (((parseDigitsAcc 0 t).1 : Nat) : Int)
    else (((parseDigitsAcc 0 (c :: t)).1 : Nat) : Int)

/-- C `strstr`: the suffix of the haystack starting at the first occurrence
of the needle, or `none` when the needle never occurs.  (An empty needle
matches immediately, as in C.) -/
def strstr : List Char → List Char → Option (List Char)
  | [], p => if p.isPrefixOf [] then some [] else none
  | c :: t, p => if p.isPrefixOf (c :: t) then some (c :: t) else strstr t p

/-- The character test `c != '"'` used when scanning a quoted value
(C `strchr(start, '"')` stops at the first quote). -/
def notQuote (c : Char) : Bool := c != '"'

/-- The search pattern `"<key>":"` that json_get_string builds with
`snprintf` into a 64-byte buffer (hence the cap at 63 characters). -/
def searchKeyStr (key : List Char) : List Char :=
  ('"' :: key ++ '"' :: ':' :: '"' :: []).take 63

/-- The search pattern `"<key>":` that json_get_int and json_get_bool build
with `snprintf` into a 64-byte buffer (hence the cap at 63 characters). -/
def searchKeyPlain (key : List Char) : List Char :=
  ('"' :: key ++ '"' :: ':' :: []).take 63

/-- `json_get_string` of multiplayer.c: find `"<key>":"`, take characters up
to the next `"` (failing if there is none), and truncate the copy to
`out_size - 1` characters.  `none` models the C function returning NULL
(with the output buffer unwritten). -/
def json_get_string (json key : List Char) (out_size : Nat) : Option (List Char) :=
  match strstr json (searchKeyStr key) with
  | none => none
  | some s =>
    let start := s.drop (searchKeyStr key).length
    if '"' ∈ start then
      some ((start.takeWhile notQuote).take (out_size - 1))
    else none

/-- The untruncated field value that `json_get_string` locates before the
`out_size - 1` cap is applied; used to state the truncation behaviour. -/
def json_field_raw (json key : List Char) : Option (List Char) :=
  match strstr json (searchKeyStr key) with
  | none => none
  | some s =>
    let start := s.drop (searchKeyStr key).length
    if '"' ∈ start then some (start.takeWhile notQuote) else none

/-- `json_get_int` of multiplayer.c: find `"<key>":` and `atoi` the rest;
absence of the key yields the caller-supplied default. -/
def json_get_int (json key : List Char) (default_val : Int) : Int :=
  match strstr json (searchKeyPlain key) with
  | none => default_val
  | some s => atoi (s.drop (searchKeyPlain key).length)

/-- `json_get_bool` of multiplayer.c: find `"<key>":`, skip spaces, and
compare the next four characters against the literal `true` (`strncmp`);
absence of the key yields the caller-supplied default. -/
def json_get_bool (json key : List Char) (default_val : Bool) : Bool :=
  match strstr json (searchKeyPlain key) with
  | none => default_val
  | some s =>
    ("true".data).isPrefixOf ((s.drop (searchKeyPlain key).length).dropWhile (fun c => c = ' '))

/-- Key literal `type`. -/
def typeKey : List Char := "type".data
/-- Key literal `participantId`. -/
def participantIdKey : List Char := "participantId".data
/-- Key literal `timeLimit`. -/
def timeLimitKey : List Char := "timeLimit".data
/-- Key literal `action`. -/
def actionKey : List Char := "action".data
/-- Key literal `targetTile`. -/
def targetTileKey : List Char := "targetTile".data
/-- Key literal `targetId`. -/
def targetIdKey : List Char := "targetId".data
/-- Key literal `weaponMode`. -/
def weaponModeKey : List Char := "weaponMode".data
/-- Key literal `aimedLocation`. -/
def aimedLocationKey : List Char := "aimedLocation".data
/-- Key literal `itemId`. -/
def itemIdKey : List Char := "itemId".data
/-- Key literal `tileIndex`. -/
def tileIndexKey : List Char := "tileIndex".data
/-- Key literal `elevation`. -/
def elevationKey : List Char := "elevation".data
/-- Key literal `rotation`. -/
def rotationKey : List Char := "rotation".data
/-- Key literal `currentHp`. -/
def currentHpKey : List Char := "currentHp".data
/-- Key literal `maxHp`. -/
def maxHpKey : List Char := "maxHp".data
/-- Key literal `currentAp`. -/
def currentApKey : List Char := "currentAp".data
/-- Key literal `maxAp`. -/
def maxApKey : List Char := "maxAp".data
/-- Key literal `isDead`. -/
def isDeadKey : List Char := "isDead".data
/-- Message-type literal `turn-start`. -/
def turnStartLit : List Char := "turn-start".data
/-- Message-type literal `remote-action`. -/
def remoteActionLit : List Char := "remote-action".data
/-- Message-type literal `player-state`. -/
def playerStateLit : List Char := "player-state".data
/-- Action-tag literal `move`. -/
def moveLit : List Char := "move".data
/-- Action-tag literal `attack`. -/
def attackLit : List Char := "attack".data
/-- Action-tag literal `use-item`. -/
def useItemLit : List Char := "use-item".data
/-- Action-tag literal `end-turn`. -/
def endTurnLit : List Char := "end-turn".data

/-- The `PlayerState` struct of multiplayer.h.  The C field capacities
(participant_id: char[64]) reappear as hypotheses where relevant. -/
structure PlayerState where
  participant_id : List Char
  tile_index : Int
  elevation : Int
  rotation : Int
  current_hp : Int
  max_hp : Int
  current_ap : Int
  max_ap : Int
  is_dead : Bool
deriving DecidableEq

/-- The `PlayerAction` struct of multiplayer.h (type: char[32],
target_id: char[64], weapon_mode: char[16], aimed_location: char[16],
item_id: char[32]). -/
structure PlayerAction where
  type : List Char
  target_tile : Int
  target_id : List Char
  weapon_mode : List Char
  aimed_location : List Char
  item_id : List Char
deriving DecidableEq

/-- The module-level mutable state of multiplayer.c: the active flag, the
session participant id (with the session strings the claims depend on), the
turn-tracking variables, and the validity of the pipe handle
(`pipe_handle != INVALID_HANDLE_VALUE`). -/
structure MpState where
  mp_active : Bool
  participant_id : List Char
  session_id : List Char
  pipe_name : List Char
  current_turn_player : List Char
  is_my_turn : Bool
  pipe_valid : Bool
deriving DecidableEq

/-- A synchronous callback invocation that `process_message` performs when
the corresponding handler slot is non-NULL: the event kind together with the
arguments handed to the handler. -/
inductive DispatchEvent where
  | turnStart (player_id : List Char) (time_limit : Int)
  | remoteAction (action : PlayerAction)
  | playerState (state : PlayerState)
deriving DecidableEq

/-- `process_message` of multiplayer.c.  Returns the updated state together
with the dispatch (if any) that fires when a handler is registered for the
decoded kind.  `junk` models the uninitialized stack buffer `player_id`
that is read unmodified when the `participantId` key is absent from a
turn-start frame. -/
def process_message (st : MpState) (json junk : List Char) :
    MpState × Option DispatchEvent :=
  let type := (json_get_string json typeKey 32).getD []
  if type = turnStartLit then
    let player_id := (json_get_string json participantIdKey 64).getD junk
    let time_limit := json_get_int json timeLimitKey 30
    ({ st with
        current_turn_player := player_id.take 63,
        is_my_turn := player_id == st.participant_id },
     some (.turnStart player_id time_limit))
  else if type = remoteActionLit then
    let action : PlayerAction :=
      { type := (json_get_string json actionKey 32).getD []
        target_tile := json_get_int json targetTileKey 0
        target_id := (json_get_string json targetIdKey 64).getD []
        weapon_mode := (json_get_string json weaponModeKey 16).getD []
        aimed_location := (json_get_string json aimedLocationKey 16).getD []
        item_id := (json_get_string json itemIdKey 32).getD [] }
    (st, some (.remoteAction action))
  else if type = playerStateLit then
    let state : PlayerState :=
      { participant_id := (json_get_string json participantIdKey 64).getD []
        tile_index := json_get_int json tileIndexKey 0
        elevation := json_get_int json elevationKey 0
        rotation := json_get_int json rotationKey 0
        current_hp := json_get_int json currentHpKey 0
        max_hp := json_get_int json maxHpKey 0
        current_ap := json_get_int json currentApKey 0
        max_ap := json_get_int json maxApKey 0
        is_dead := json_get_bool json isDeadKey false }
    (st, some (.playerState state))
  else
    (st, none)

/-- `MSG_BUFFER_SIZE` of multiplayer.c. -/
def MSG_BUFFER_SIZE : Nat := 4096

/-- One iteration of the byte loop in `receive_messages`: on `\n` the
accumulated buffer is emitted as a frame when nonempty and the buffer
resets; otherwise the byte is appended only while the buffer position is
below `MSG_BUFFER_SIZE - 1` (bytes beyond that are silently dropped). -/
def msgFeedStep (acc : List Char × List (List Char)) (c : Char) :
    List Char × List (List Char) :=
  if c = '\n' then
    if acc.1 = [] then ([], acc.2) else ([], acc.2 ++ [acc.1])
  else if acc.1.length < MSG_BUFFER_SIZE - 1 then (acc.1 ++ [c], acc.2)
  else acc

/-- The byte loop of `receive_messages` applied to one chunk of bytes read
from the pipe: returns the retained partial buffer and the complete frames
emitted (in order) during this call. -/
def msgFeed (buf input : List Char) : List Char × List (List Char) :=
  input.foldl msgFeedStep (buf, [])

/-- Several consecutive `receive_messages` reads: feed each chunk in turn,
collecting all emitted frames in order. -/
def msgFeedAll (buf : List Char) (chunks : List (List Char)) :
    List Char × List (List Char) :=
  chunks.foldl (fun acc ch =>
    let r := msgFeed acc.1 ch
    (r.1, acc.2 ++ r.2)) (buf, [])

/-- The `ready` handshake payload built in `mp_init`
(`snprintf` into a 256-byte buffer). -/
def encodeReady (pid : List Char) : List Char :=
  ("\x7b\"type\":\"ready\",\"participantId\":\"".data) ++ pid ++ ("\"\x7d".data)

/-- The `state-update` payload built in `mp_send_state`
(`snprintf` into a 512-byte buffer). -/
def encodeState (s : PlayerState) : List Char :=
  ("\x7b\"type\":\"state-update\",\"participantId\":\"".data) ++ s.participant_id ++
  ("\",\"tileIndex\":".data) ++ intToChars s.tile_index ++
  (",\"elevation\":".data) ++ intToChars s.elevation ++
  (",\"rotation\":".data) ++ intToChars s.rotation ++
  (",\"currentHp\":".data) ++ intToChars s.current_hp ++
  (",\"maxHp\":".data) ++ intToChars s.max_hp ++
  (",\"currentAp\":".data) ++ intToChars s.current_ap ++
  (",\"maxAp\":".data) ++ intToChars s.max_ap ++
  (",\"isDead\":".data) ++ (if s.is_dead then "true".data else "false".data) ++
  ("\x7d".data)

/-- The `action` payload built in `mp_send_action`, one fixed layout per
recognized tag.  When the tag matches none of the four cases the C code
sends the uninitialized `json` stack buffer, modelled by `junk`. -/
def encodeAction (a : PlayerAction) (junk : List Char) : List Char :=
  if a.type = moveLit then
    ("\x7b\"type\":\"action\",\"action\":\"move\",\"targetTile\":".data) ++
      intToChars a.target_tile ++ ("\x7d".data)
  else if a.type = attackLit then
    ("\x7b\"type\":\"action\",\"action\":\"attack\",\"targetId\":\"".data) ++ a.target_id ++
    ("\",\"weaponMode\":\"".data) ++ a.weapon_mode ++
    ("\",\"aimedLocation\":\"".data) ++ a.aimed_location ++ ("\"\x7d".data)
  else if a.type = useItemLit then
    ("\x7b\"type\":\"action\",\"action\":\"use-item\",\"itemId\":\"".data) ++ a.item_id ++
    ("\",\"targetId\":\"".data) ++ a.target_id ++ ("\"\x7d".data)
  else if a.type = endTurnLit then
    ("\x7b\"type\":\"action\",\"action\":\"end-turn\"\x7d".data)
  else junk

/-- `send_message` of multiplayer.c: fails returning `false` when the pipe
handle is invalid; otherwise hands `json` plus a newline (truncated by
`snprintf` to the 4096-byte buffer) to WriteFile, whose success is the
environment input `write_ok`.  The written bytes are the observable
output. -/
def send_message (st : MpState) (write_ok : Bool) (json : List Char) :
    Bool × Option (List Char) :=
  if st.pipe_valid then (write_ok, some ((json ++ ['\n']).take (MSG_BUFFER_SIZE - 1)))
  else (false, none)

/-- `mp_send_state` of multiplayer.c: a `void` function; returns early with
no write when the layer is inactive or the argument is NULL, otherwise
formats the state (512-byte buffer) and calls `send_message`, discarding
its boolean result. -/
def mp_send_state (st : MpState) (write_ok : Bool) (state : Option PlayerState) :
    MpState × Option (List Char) :=
  match state with
  | none => (st, none)
  | some s =>
    if st.mp_active then (st, (send_message st write_ok ((encodeState s).take 511)).2)
    else (st, none)

/-- `mp_send_action` of multiplayer.c: a `void` function; returns early with
no write when the layer is inactive or the argument is NULL, otherwise
formats the action (512-byte buffer) and calls `send_message`, discarding
its boolean result. -/
def mp_send_action (st : MpState) (write_ok : Bool) (junk : List Char)
    (action : Option PlayerAction) : MpState × Option (List Char) :=
  match action with
  | none => (st, none)
  | some a =>
    if st.mp_active then (st, (send_message st write_ok ((encodeAction a junk).take 511)).2)
    else (st, none)

/-- `disconnect_pipe` of multiplayer.c: closes the handle only when it is
valid.  The boolean records whether a CloseHandle transport operation was
performed. -/
def disconnect_pipe (st : MpState) : MpState × Bool :=
  if st.pipe_valid then ({ st with pipe_valid := false }, true) else (st, false)

/-- `mp_exit` of multiplayer.c: when active, disconnect the pipe and clear
the active flag; otherwise do nothing.  The boolean records whether a
transport operation was performed. -/
def mp_exit (st : MpState) : MpState × Bool :=
  if st.mp_active then
    let r := disconnect_pipe st
    ({ r.1 with mp_active := false }, r.2)
  else (st, false)

/-- `mp_is_active` of multiplayer.c. -/
def mp_is_active (st : MpState) : Bool := st.mp_active

/-- `mp_is_my_turn` of multiplayer.c: `mp_active && is_my_turn`. -/
def mp_is_my_turn (st : MpState) : Bool := st.mp_active && st.is_my_turn

/-- `mp_get_current_turn_player` of multiplayer.c: NULL when the stored
id is empty, the stored id otherwise. -/
def mp_get_current_turn_player (st : MpState) : Option (List Char) :=
  if st.current_turn_player = [] then none else some st.current_turn_player

/-- A typed field of a wire frame, used to factor the round-trip proofs:
every encoder output is shown equal to `render` of its field list. -/
inductive JField where
  | strF (key val : List Char)
  | intF (key : List Char) (val : Int)
  | boolF (key : List Char) (val : Bool)

/-- The key of a `JField`. -/
def JField.key : JField → List Char
  | .strF k _ => k
  | .intF k _ => k
  | .boolF k _ => k

/-- The rendered text of one field, exactly as the `snprintf` layouts print
it: `"key":"value"`, `"key":<digits>`, or `"key":true|false`. -/
def renderF : JField → List Char
  | .strF k v => '"' :: k ++ '"' :: ':' :: '"' :: v ++ ['"']
  | .intF k i => '"' :: k ++ '"' :: ':' :: intToChars i
  | .boolF k b => '"' :: k ++ '"' :: ':' :: (if b then "true".data else "false".data)

/-- Comma-separated rendering of a field list. -/
def renderFs : List JField → List Char
  | [] => []
  | [f] => renderF f
  | f :: g :: fs => renderF f ++ ',' :: renderFs (g :: fs)

/-- A whole frame: the fields wrapped in braces. -/
def render (fs : List JField) : List Char :=
  '\x7b' :: renderFs fs ++ ['\x7d']

/-- Side condition on a skipped field: its key and (for string fields) its
value contain no quote character. -/
def fieldOKB : JField → Bool
  | .strF k v => decide ('"' ∉ k) && decide ('"' ∉ v)
  | .intF k _ => decide ('"' ∉ k)
  | .boolF k _ => decide ('"' ∉ k)

/-- Decidable check that no occurrence of `p` can begin inside the concrete
literal `l`, whatever follows `l`: at every start position the overlapping
portions of `l` and `p` disagree. -/
def noStraddle : List Char → List Char → Bool
  | [], _ => true
  | c :: t, p => !((p.take (t.length + 1)).isPrefixOf (c :: t)) && noStraddle t p

/-- The value range of a 32-bit C `int`, the type of every numeric field of
`PlayerState` and `PlayerAction`. -/
def cIntRange (i : Int) : Prop := -2147483648 ≤ i ∧ i < 2147483648

/-! ### Arithmetic and parsing lemmas -/

lemma digitChar_spec (d : Nat) (h : d < 10) :
    isDigitC (digitChar d) = true ∧ digVal (digitChar d) = d ∧
    digitChar d ≠ '-' ∧ digitChar d ≠ '+' ∧ isSpaceC (digitChar d) = false ∧
    digitChar d ≠ '"' := by
  interval_cases d <;> exact ⟨by decide, by decide, by decide, by decide, by decide, by decide⟩

lemma isSpaceC_cases (c : Char) (h : isSpaceC c = true) :
    c = ' ' ∨ c = '\t' ∨ c = '\n' ∨ c = '\x0b' ∨ c = '\x0c' ∨ c = '\r' := by
  have h2 := h
  simp only [isSpaceC, Bool.or_eq_true, decide_eq_true_eq] at h2
  tauto

lemma isDigitC_not_space (c : Char) (h : isDigitC c = true) : isSpaceC c = false := by
  cases hs : isSpaceC c
  · rfl
  · rcases isSpaceC_cases c hs with h1 | h1 | h1 | h1 | h1 | h1 <;> subst h1 <;>
      exact absurd h (by decide)

lemma isDigitC_ne_signs (c : Char) (h : isDigitC c = true) : c ≠ '-' ∧ c ≠ '+' := by
  constructor <;> intro h1 <;> subst h1 <;> exact absurd h (by decide)

lemma natToDigits_all_digits (n : Nat) : ∀ c ∈ natToDigits n, isDigitC c = true := by
  induction n using Nat.strong_induction_on with
  | _ n ih =>
    rw [natToDigits]
    split
    · next h =>
      intro c hc
      simp only [List.mem_singleton] at hc
      subst hc
      exact (digitChar_spec n h).1
    · next h =>
      intro c hc
      rw [List.mem_append] at hc
      rcases hc with hc | hc
      · exact ih (n / 10) (Nat.div_lt_self (by omega) (by omega)) c hc
      · simp only [List.mem_singleton] at hc
        subst hc
        exact (digitChar_spec (n % 10) (Nat.mod_lt _ (by omega))).1

lemma natToDigits_ne_nil (n : Nat) : natToDigits n ≠ [] := by
  rw [natToDigits]
  split
  · simp
  · simp

lemma natToDigits_no_quote (n : Nat) : '"' ∉ natToDigits n := by
  intro hc
  have := natToDigits_all_digits n '"' hc
  exact absurd this (by decide)

lemma intToChars_no_quote (i : Int) : '"' ∉ intToChars i := by
  unfold intToChars
  split
  · intro hc
    rcases List.mem_cons.mp hc with h1 | h1
    · exact absurd h1 (by decide)
    · exact natToDigits_no_quote _ h1
  · exact natToDigits_no_quote _

lemma intToChars_ne_nil (i : Int) : intToChars i ≠ [] := by
  unfold intToChars
  split
  · simp
  · exact natToDigits_ne_nil _

lemma parseDigitsAcc_stop (acc : Nat) (rest : List Char)
    (h : ∀ c, rest.head? = some c → isDigitC c = false) :
    parseDigitsAcc acc rest = (acc, rest) := by
  cases rest with
  | nil => rfl
  | cons c cs => simp [parseDigitsAcc, h c rfl]

lemma parseDigitsAcc_natToDigits (n : Nat) :
    ∀ acc rest, parseDigitsAcc acc (natToDigits n ++ rest) =
      parseDigitsAcc (acc * 10 ^ (natToDigits n).length + n) rest := by
  induction n using Nat.strong_induction_on with
  | _ n ih =>
    intro acc rest
    rw [natToDigits]
    split
    · next h =>
      have hd := digitChar_spec n h
      simp [parseDigitsAcc, hd.1, hd.2.1]
    · next h =>
      have hd := digitChar_spec (n % 10) (Nat.mod_lt _ (by omega))
      rw [List.append_assoc, ih (n / 10) (Nat.div_lt_self (by omega) (by omega)),
        List.singleton_append]
      simp only [parseDigitsAcc, hd.1, if_true, hd.2.1, List.length_append,
        List.length_singleton, pow_succ]
      have key : ∀ M : Nat, (M + n / 10) * 10 + n % 10 = M * 10 + n := by
        intro M; omega
      rw [key, ← mul_assoc]

lemma atoi_int_append (i : Int) (rest : List Char)
    (h : ∀ c, rest.head? = some c → isDigitC c = false) :
    atoi (intToChars i ++ rest) = i := by
  unfold intToChars
  split
  · next hneg =>
    rw [List.cons_append]
    have hdw : List.dropWhile isSpaceC ('-' :: (natToDigits i.natAbs ++ rest)) =
        '-' :: (natToDigits i.natAbs ++ rest) := by
      rw [List.dropWhile_cons, show isSpaceC '-' = false by decide]
      simp
    rw [atoi, hdw]
    simp only [if_pos rfl]
    rw [parseDigitsAcc_natToDigits, zero_mul, zero_add, parseDigitsAcc_stop _ _ h]
    show -(i.natAbs : ℤ) = i
    omega
  · next hpos =>
    obtain ⟨d, ds, hds⟩ : ∃ d ds, natToDigits i.toNat = d :: ds := by
      cases h' : natToDigits i.toNat with
      | nil => exact absurd h' (natToDigits_ne_nil _)
      | cons d ds => exact ⟨d, ds, rfl⟩
    have hdd : isDigitC d = true := natToDigits_all_digits i.toNat d (by rw [hds]; simp)
    have hsp : isSpaceC d = false := isDigitC_not_space d hdd
    have hsg := isDigitC_ne_signs d hdd
    rw [hds, List.cons_append]
    have hdw : List.dropWhile isSpaceC (d :: (ds ++ rest)) = d :: (ds ++ rest) := by
      rw [List.dropWhile_cons, hsp]
      simp
    rw [atoi, hdw]
    simp only [hsg.1, hsg.2, if_false]
    rw [← List.cons_append, ← hds, parseDigitsAcc_natToDigits, zero_mul, zero_add,
      parseDigitsAcc_stop _ _ h]
    show (i.toNat : ℤ) = i
    omega

/-! ### strstr lemmas -/

lemma strstr_found (s p : List Char) (h : p <+: s) : strstr s p = some s := by
  cases s <;> simp [strstr, List.isPrefixOf_iff_prefix, h]

lemma strstr_cons_skip (c : Char) (t p : List Char) (h : ¬ p <+: (c :: t)) :
    strstr (c :: t) p = strstr t p := by
  simp [strstr, List.isPrefixOf_iff_prefix, h]

lemma strstr_append_right (v X : List Char) (q0 : Char) (q : List Char)
    (h : ∀ c ∈ v, c ≠ q0) : strstr (v ++ X) (q0 :: q) = strstr X (q0 :: q) := by
  induction v with
  | nil => simp
  | cons a t ih =>
    rw [List.cons_append, strstr_cons_skip]
    · exact ih (fun c hc => h c (List.mem_cons_of_mem _ hc))
    · intro hp
      exact (h a (by simp)) (List.cons_prefix_cons.mp hp).1.symm

lemma prefix_take_of_prefix_append (p l X : List Char) (h : p <+: l ++ X) :
    p.take l.length <+: l := by
  have h1 : p = (l ++ X).take p.length := List.prefix_iff_eq_take.mp h
  have h2 : p.take l.length = (l ++ X).take (l.length ⊓ p.length) := by
    conv_lhs => rw [h1]
    rw [List.take_take]
  rw [h2, List.take_append_eq_append_take,
    Nat.sub_eq_zero_of_le (min_le_left _ _), List.take_zero, List.append_nil]
  exact List.take_prefix _ _

lemma strstr_append_noStraddle (l p X : List Char) (h : noStraddle l p = true) :
    strstr (l ++ X) p = strstr X p := by
  induction l with
  | nil => simp
  | cons c t ih =>
    rw [noStraddle] at h
    simp only [Bool.and_eq_true, Bool.not_eq_true'] at h
    obtain ⟨h1, h2⟩ := h
    rw [List.cons_append, strstr_cons_skip]
    · exact ih h2
    · intro hp
      have h3 := prefix_take_of_prefix_append p (c :: t) X hp
      rw [List.length_cons, ← List.isPrefixOf_iff_prefix] at h3
      simp [h1] at h3

lemma append_quote_split (k z v w : List Char) (hk : '"' ∉ k) (hv : '"' ∉ v)
    (h : k ++ '"' :: z <+: v ++ '"' :: w) : k = v ∧ z <+: w := by
  induction k generalizing v with
  | nil =>
    cases v with
    | nil => exact ⟨rfl, (List.cons_prefix_cons.mp h).2⟩
    | cons a v' =>
      rw [List.nil_append, List.cons_append, List.cons_prefix_cons] at h
      obtain ⟨h1, _⟩ := h
      subst h1
      exact absurd (List.mem_cons_self _ _) hv
  | cons b k' ih =>
    cases v with
    | nil =>
      rw [List.cons_append, List.nil_append, List.cons_prefix_cons] at h
      obtain ⟨h1, _⟩ := h
      subst h1
      exact absurd (List.mem_cons_self _ _) hk
    | cons a v' =>
      rw [List.cons_append, List.cons_append, List.cons_prefix_cons] at h
      obtain ⟨hba, h'⟩ := h
      subst hba
      have hrec := ih v' (fun hx => hk (List.mem_cons_of_mem _ hx))
        (fun hx => hv (List.mem_cons_of_mem _ hx)) h'
      exact ⟨by rw [hrec.1], hrec.2⟩

lemma takeWhile_notQuote_append (v Y : List Char) (hv : '"' ∉ v) :
    (v ++ '"' :: Y).takeWhile notQuote = v := by
  induction v with
  | nil => simp [List.takeWhile_cons, notQuote]
  | cons a t ih =>
    have ha : a ≠ '"' := fun h => hv (by simp [h])
    simp [List.takeWhile_cons, notQuote, ha, ih (fun h => hv (List.mem_cons_of_mem _ h))]

/-! ### Skipping rendered fields while searching for a key pattern -/

lemma boolLit_no_quote (b : Bool) : '"' ∉ (if b then "true".data else "false".data) := by
  cases b <;> decide

lemma strstr_skip_strF (k v rest pk' drest : List Char) (pk0 : Char)
    (hqk : '"' ∉ k) (hqv : '"' ∉ v) (hq : '"' ∉ (pk0 :: pk'))
    (hc1 : pk0 ≠ ':') (hc2 : pk0 ≠ ',') (hkey : k ≠ pk0 :: pk') :
    strstr ('"' :: (k ++ '"' :: ':' :: '"' :: (v ++ '"' :: ',' :: rest)))
      ('"' :: ((pk0 :: pk') ++ '"' :: ':' :: drest)) =
    strstr rest ('"' :: ((pk0 :: pk') ++ '"' :: ':' :: drest)) := by
  have h1 : ¬ ('"' :: ((pk0 :: pk') ++ '"' :: ':' :: drest)) <+:
      ('"' :: (k ++ '"' :: ':' :: '"' :: (v ++ '"' :: ',' :: rest))) := by
    intro hp
    have h' := (List.cons_prefix_cons.mp hp).2
    exact hkey (append_quote_split (pk0 :: pk') (':' :: drest) k _ hq hqk h').1.symm
  rw [strstr_cons_skip _ _ _ h1]
  rw [strstr_append_right k _ '"' _ (fun c hc he => hqk (he ▸ hc))]
  have h2 : ¬ ('"' :: ((pk0 :: pk') ++ '"' :: ':' :: drest)) <+:
      ('"' :: ':' :: '"' :: (v ++ '"' :: ',' :: rest)) := by
    intro hp
    have h' := (List.cons_prefix_cons.mp hp).2
    rw [List.cons_append] at h'
    exact hc1 (List.cons_prefix_cons.mp h').1
  rw [strstr_cons_skip _ _ _ h2]
  have h3 : ¬ ('"' :: ((pk0 :: pk') ++ '"' :: ':' :: drest)) <+:
      (':' :: '"' :: (v ++ '"' :: ',' :: rest)) := by
    intro hp
    exact absurd (List.cons_prefix_cons.mp hp).1 (by decide)
  rw [strstr_cons_skip _ _ _ h3]
  have h4 : ¬ ('"' :: ((pk0 :: pk') ++ '"' :: ':' :: drest)) <+:
      ('"' :: (v ++ '"' :: ',' :: rest)) := by
    intro hp
    have h' := (List.cons_prefix_cons.mp hp).2
    have h'' := (append_quote_split (pk0 :: pk') (':' :: drest) v _ hq hqv h').2
    exact absurd (List.cons_prefix_cons.mp h'').1 (by decide)
  rw [strstr_cons_skip _ _ _ h4]
  rw [strstr_append_right v _ '"' _ (fun c hc he => hqv (he ▸ hc))]
  have h5 : ¬ ('"' :: ((pk0 :: pk') ++ '"' :: ':' :: drest)) <+: ('"' :: ',' :: rest) := by
    intro hp
    have h' := (List.cons_prefix_cons.mp hp).2
    rw [List.cons_append] at h'
    exact hc2 (List.cons_prefix_cons.mp h').1
  rw [strstr_cons_skip _ _ _ h5]
  have h6 : ¬ ('"' :: ((pk0 :: pk') ++ '"' :: ':' :: drest)) <+: (',' :: rest) := by
    intro hp
    exact absurd (List.cons_prefix_cons.mp hp).1 (by decide)
  rw [strstr_cons_skip _ _ _ h6]

lemma strstr_skip_plainval (k pval rest pk' drest : List Char) (pk0 : Char)
    (hqk : '"' ∉ k) (hqv : '"' ∉ pval) (hvne : pval ≠ [])
    (hq : '"' ∉ (pk0 :: pk')) (hc1 : pk0 ≠ ':') (hc2 : pk0 ≠ ',')
    (hkey : k ≠ pk0 :: pk') :
    strstr ('"' :: (k ++ '"' :: ':' :: (pval ++ ',' :: rest)))
      ('"' :: ((pk0 :: pk') ++ '"' :: ':' :: drest)) =
    strstr rest ('"' :: ((pk0 :: pk') ++ '"' :: ':' :: drest)) := by
  have h1 : ¬ ('"' :: ((pk0 :: pk') ++ '"' :: ':' :: drest)) <+:
      ('"' :: (k ++ '"' :: ':' :: (pval ++ ',' :: rest))) := by
    intro hp
    have h' := (List.cons_prefix_cons.mp hp).2
    exact hkey (append_quote_split (pk0 :: pk') (':' :: drest) k _ hq hqk h').1.symm
  rw [strstr_cons_skip _ _ _ h1]
  rw [strstr_append_right k _ '"' _ (fun c hc he => hqk (he ▸ hc))]
  have h2 : ¬ ('"' :: ((pk0 :: pk') ++ '"' :: ':' :: drest)) <+:
      ('"' :: ':' :: (pval ++ ',' :: rest)) := by
    intro hp
    have h' := (List.cons_prefix_cons.mp hp).2
    rw [List.cons_append] at h'
    exact hc1 (List.cons_prefix_cons.mp h').1
  rw [strstr_cons_skip _ _ _ h2]
  have h3 : ¬ ('"' :: ((pk0 :: pk') ++ '"' :: ':' :: drest)) <+:
      (':' :: (pval ++ ',' :: rest)) := by
    intro hp
    exact absurd (List.cons_prefix_cons.mp hp).1 (by decide)
  rw [strstr_cons_skip _ _ _ h3]
  rw [strstr_append_right pval _ '"' _ (fun c hc he => hqv (he ▸ hc))]
  have h6 : ¬ ('"' :: ((pk0 :: pk') ++ '"' :: ':' :: drest)) <+: (',' :: rest) := by
    intro hp
    exact absurd (List.cons_prefix_cons.mp hp).1 (by decide)
  rw [strstr_cons_skip _ _ _ h6]

lemma strstr_skip_renderF (f : JField) (rest pk' drest : List Char) (pk0 : Char)
    (hq : '"' ∉ (pk0 :: pk')) (hc1 : pk0 ≠ ':') (hc2 : pk0 ≠ ',')
    (hf : fieldOKB f = true) (hkey : f.key ≠ pk0 :: pk') :
    strstr (renderF f ++ ',' :: rest) ('"' :: ((pk0 :: pk') ++ '"' :: ':' :: drest)) =
    strstr rest ('"' :: ((pk0 :: pk') ++ '"' :: ':' :: drest)) := by
  rcases f with ⟨k, v⟩ | ⟨k, i⟩ | ⟨k, b⟩
  · simp only [fieldOKB, Bool.and_eq_true, decide_eq_true_eq] at hf
    simp only [renderF, List.cons_append, List.append_assoc, List.singleton_append]
    exact strstr_skip_strF k v rest pk' drest pk0 hf.1 hf.2 hq hc1 hc2 hkey
  · simp only [fieldOKB, decide_eq_true_eq] at hf
    simp only [renderF, List.cons_append, List.append_assoc]
    exact strstr_skip_plainval k (intToChars i) rest pk' drest pk0 hf
      (intToChars_no_quote i) (intToChars_ne_nil i) hq hc1 hc2 hkey
  · simp only [fieldOKB, decide_eq_true_eq] at hf
    simp only [renderF, List.cons_append, List.append_assoc]
    exact strstr_skip_plainval k (if b then "true".data else "false".data) rest pk' drest pk0
      hf (boolLit_no_quote b) (by cases b <;> decide) hq hc1 hc2 hkey

lemma strstr_skip_renderFs (fs : List JField) (rest pk' drest : List Char) (pk0 : Char)
    (hq : '"' ∉ (pk0 :: pk')) (hc1 : pk0 ≠ ':') (hc2 : pk0 ≠ ',')
    (hall : ∀ f ∈ fs, fieldOKB f = true ∧ f.key ≠ pk0 :: pk') :
    strstr (renderFs fs ++ ',' :: rest) ('"' :: ((pk0 :: pk') ++ '"' :: ':' :: drest)) =
    strstr rest ('"' :: ((pk0 :: pk') ++ '"' :: ':' :: drest)) := by
  induction fs generalizing rest with
  | nil =>
    rw [renderFs, List.nil_append, strstr_cons_skip]
    intro hp
    exact absurd (List.cons_prefix_cons.mp hp).1 (by decide)
  | cons f fs ih =>
    cases fs with
    | nil =>
      rw [renderFs]
      exact strstr_skip_renderF f rest pk' drest pk0 hq hc1 hc2
        (hall f (by simp)).1 (hall f (by simp)).2
    | cons g gs =>
      have hshape : renderFs (f :: g :: gs) ++ ',' :: rest =
          renderF f ++ ',' :: (renderFs (g :: gs) ++ ',' :: rest) := by
        simp [renderFs, List.append_assoc]
      rw [hshape,
        strstr_skip_renderF f _ pk' drest pk0 hq hc1 hc2 (hall f (by simp)).1
          (hall f (by simp)).2]
      exact ih _ (fun f' hf' => hall f' (List.mem_cons_of_mem _ hf'))

lemma renderFs_append (b : List JField) (hb : b ≠ []) :
    ∀ a : List JField, a ≠ [] → renderFs (a ++ b) = renderFs a ++ ',' :: renderFs b := by
  intro a
  induction a with
  | nil => intro h; exact absurd rfl h
  | cons f fs ih =>
    intro _
    cases fs with
    | nil =>
      cases b with
      | nil => exact absurd rfl hb
      | cons g gs => simp [renderFs]
    | cons f2 fs2 =>
      have h1 : (f :: f2 :: fs2) ++ b = f :: f2 :: (fs2 ++ b) := by simp
      have h2 : renderFs (f :: f2 :: (fs2 ++ b)) =
          renderF f ++ ',' :: renderFs (f2 :: (fs2 ++ b)) := by
        simp [renderFs]
      rw [h1, h2, show f2 :: (fs2 ++ b) = (f2 :: fs2) ++ b from rfl, ih (by simp)]
      simp [renderFs, List.append_assoc]

lemma renderFs_cons_split (f : JField) (post : List JField) :
    ∃ c zs, renderFs (f :: post) ++ ['\x7d'] = renderF f ++ c :: zs ∧
      (c = ',' ∨ c = '\x7d') := by
  cases post with
  | nil => exact ⟨'\x7d', [], by simp [renderFs], Or.inr rfl⟩
  | cons g gs =>
    exact ⟨',', renderFs (g :: gs) ++ ['\x7d'], by simp [renderFs, List.append_assoc], Or.inl rfl⟩

/-! ### Extraction of one field from a rendered frame -/

lemma searchKeyStr_eq (k : List Char) (h : k.length + 4 ≤ 63) :
    searchKeyStr k = '"' :: (k ++ '"' :: ':' :: ['"']) := by
  unfold searchKeyStr
  rw [List.take_of_length_le]
  · rw [List.cons_append]
  · simp only [List.length_append, List.length_cons]
    simp
    omega

lemma searchKeyPlain_eq (k : List Char) (h : k.length + 3 ≤ 63) :
    searchKeyPlain k = '"' :: (k ++ '"' :: ':' :: []) := by
  unfold searchKeyPlain
  rw [List.take_of_length_le]
  · rw [List.cons_append]
  · simp only [List.length_append, List.length_cons]
    simp
    omega

lemma json_get_string_some (json key s : List Char) (os : Nat)
    (hfind : strstr json (searchKeyStr key) = some (searchKeyStr key ++ s)) :
    json_get_string json key os =
      if '"' ∈ s then some ((s.takeWhile notQuote).take (os - 1)) else none := by
  unfold json_get_string
  simp only [hfind, List.drop_left]

lemma json_get_int_some (json key s : List Char) (dflt : Int)
    (hfind : strstr json (searchKeyPlain key) = some (searchKeyPlain key ++ s)) :
    json_get_int json key dflt = atoi s := by
  unfold json_get_int
  simp only [hfind, List.drop_left]

lemma json_get_bool_some (json key s : List Char) (dflt : Bool)
    (hfind : strstr json (searchKeyPlain key) = some (searchKeyPlain key ++ s)) :
    json_get_bool json key dflt =
      ("true".data).isPrefixOf (s.dropWhile (fun c => c = ' ')) := by
  unfold json_get_bool
  simp only [hfind, List.drop_left]

lemma json_get_string_render (pre post : List JField) (k v : List Char) (os : Nat)
    (hk0 : k ≠ []) (hkq : '"' ∉ k)
    (hkh : k.head? ≠ some ':' ∧ k.head? ≠ some ',')
    (hklen : k.length + 4 ≤ 63)
    (hv : '"' ∉ v) (hos : v.length + 1 ≤ os)
    (hall : ∀ f ∈ pre, fieldOKB f = true ∧ f.key ≠ k) :
    json_get_string (render (pre ++ JField.strF k v :: post)) k os = some v := by
  obtain ⟨k0, k', hk⟩ : ∃ k0 k', k = k0 :: k' := by
    cases k with
    | nil => exact absurd rfl hk0
    | cons a b => exact ⟨a, b, rfl⟩
  subst hk
  have hh : k0 ≠ ':' ∧ k0 ≠ ',' :=
    ⟨fun h => hkh.1 (by simp [h]), fun h => hkh.2 (by simp [h])⟩
  obtain ⟨c, zs, hsplit, hcz⟩ := renderFs_cons_split (JField.strF (k0 :: k') v) post
  have hfound : strstr (renderFs (JField.strF (k0 :: k') v :: post) ++ ['\x7d'])
      ('"' :: ((k0 :: k') ++ '"' :: ':' :: ['"'])) =
      some (('"' :: ((k0 :: k') ++ '"' :: ':' :: ['"'])) ++ (v ++ '"' :: c :: zs)) := by
    rw [hsplit]
    have hshape : renderF (JField.strF (k0 :: k') v) ++ c :: zs =
        ('"' :: ((k0 :: k') ++ '"' :: ':' :: ['"'])) ++ (v ++ '"' :: c :: zs) := by
      simp [renderF, List.append_assoc]
    rw [hshape]
    exact strstr_found _ _ (List.prefix_append _ _)
  have hmain : strstr (render (pre ++ JField.strF (k0 :: k') v :: post))
      ('"' :: ((k0 :: k') ++ '"' :: ':' :: ['"'])) =
      some (('"' :: ((k0 :: k') ++ '"' :: ':' :: ['"'])) ++ (v ++ '"' :: c :: zs)) := by
    unfold render
    cases pre with
    | nil =>
      rw [List.nil_append, List.cons_append, strstr_cons_skip _ _ _
        (fun hp => absurd (List.cons_prefix_cons.mp hp).1 (by decide))]
      exact hfound
    | cons p0 ps =>
      rw [renderFs_append (JField.strF (k0 :: k') v :: post) (by simp) (p0 :: ps) (by simp),
        List.cons_append,
        strstr_cons_skip _ _ _
          (fun hp => absurd (List.cons_prefix_cons.mp hp).1 (by decide)),
        List.append_assoc, List.cons_append,
        strstr_skip_renderFs (p0 :: ps) _ k' ['"'] k0 hkq hh.1 hh.2 hall]
      exact hfound
  rw [← searchKeyStr_eq _ hklen] at hmain
  rw [json_get_string_some _ _ _ os hmain, if_pos (by simp),
    takeWhile_notQuote_append _ _ hv, List.take_of_length_le (by omega)]

lemma json_get_int_render (pre post : List JField) (k : List Char) (i dflt : Int)
    (hk0 : k ≠ []) (hkq : '"' ∉ k)
    (hkh : k.head? ≠ some ':' ∧ k.head? ≠ some ',')
    (hklen : k.length + 3 ≤ 63)
    (hall : ∀ f ∈ pre, fieldOKB f = true ∧ f.key ≠ k) :
    json_get_int (render (pre ++ JField.intF k i :: post)) k dflt = i := by
  obtain ⟨k0, k', hk⟩ : ∃ k0 k', k = k0 :: k' := by
    cases k with
    | nil => exact absurd rfl hk0
    | cons a b => exact ⟨a, b, rfl⟩
  subst hk
  have hh : k0 ≠ ':' ∧ k0 ≠ ',' :=
    ⟨fun h => hkh.1 (by simp [h]), fun h => hkh.2 (by simp [h])⟩
  obtain ⟨c, zs, hsplit, hcz⟩ := renderFs_cons_split (JField.intF (k0 :: k') i) post
  have hfound : strstr (renderFs (JField.intF (k0 :: k') i :: post) ++ ['\x7d'])
      ('"' :: ((k0 :: k') ++ '"' :: ':' :: [])) =
      some (('"' :: ((k0 :: k') ++ '"' :: ':' :: [])) ++ (intToChars i ++ c :: zs)) := by
    rw [hsplit]
    have hshape : renderF (JField.intF (k0 :: k') i) ++ c :: zs =
        ('"' :: ((k0 :: k') ++ '"' :: ':' :: [])) ++ (intToChars i ++ c :: zs) := by
      simp [renderF, List.append_assoc]
    rw [hshape]
    exact strstr_found _ _ (List.prefix_append _ _)
  have hmain : strstr (render (pre ++ JField.intF (k0 :: k') i :: post))
      ('"' :: ((k0 :: k') ++ '"' :: ':' :: [])) =
      some (('"' :: ((k0 :: k') ++ '"' :: ':' :: [])) ++ (intToChars i ++ c :: zs)) := by
    unfold render
    cases pre with
    | nil =>
      rw [List.nil_append, List.cons_append, strstr_cons_skip _ _ _
        (fun hp => absurd (List.cons_prefix_cons.mp hp).1 (by decide))]
      exact hfound
    | cons p0 ps =>
      rw [renderFs_append (JField.intF (k0 :: k') i :: post) (by simp) (p0 :: ps) (by simp),
        List.cons_append,
        strstr_cons_skip _ _ _
          (fun hp => absurd (List.cons_prefix_cons.mp hp).1 (by decide)),
        List.append_assoc, List.cons_append,
        strstr_skip_renderFs (p0 :: ps) _ k' [] k0 hkq hh.1 hh.2 hall]
      exact hfound
  rw [← searchKeyPlain_eq _ hklen] at hmain
  rw [json_get_int_some _ _ _ dflt hmain]
  refine atoi_int_append i (c :: zs) ?_
  intro x hx
  rw [List.head?_cons, Option.some_inj] at hx
  subst hx
  rcases hcz with h | h <;> subst h <;> decide

lemma json_get_bool_render (pre post : List JField) (k : List Char) (b dflt : Bool)
    (hk0 : k ≠ []) (hkq : '"' ∉ k)
    (hkh : k.head? ≠ some ':' ∧ k.head? ≠ some ',')
    (hklen : k.length + 3 ≤ 63)
    (hall : ∀ f ∈ pre, fieldOKB f = true ∧ f.key ≠ k) :
    json_get_bool (render (pre ++ JField.boolF k b :: post)) k dflt = b := by
  obtain ⟨k0, k', hk⟩ : ∃ k0 k', k = k0 :: k' := by
    cases k with
    | nil => exact absurd rfl hk0
    | cons a b2 => exact ⟨a, b2, rfl⟩
  subst hk
  have hh : k0 ≠ ':' ∧ k0 ≠ ',' :=
    ⟨fun h => hkh.1 (by simp [h]), fun h => hkh.2 (by simp [h])⟩
  obtain ⟨c, zs, hsplit, hcz⟩ := renderFs_cons_split (JField.boolF (k0 :: k') b) post
  have hfound : strstr (renderFs (JField.boolF (k0 :: k') b :: post) ++ ['\x7d'])
      ('"' :: ((k0 :: k') ++ '"' :: ':' :: [])) =
      some (('"' :: ((k0 :: k') ++ '"' :: ':' :: [])) ++
        ((if b then "true".data else "false".data) ++ c :: zs)) := by
    rw [hsplit]
    have hshape : renderF (JField.boolF (k0 :: k') b) ++ c :: zs =
        ('"' :: ((k0 :: k') ++ '"' :: ':' :: [])) ++
          ((if b then "true".data else "false".data) ++ c :: zs) := by
      simp [renderF, List.append_assoc]
    rw [hshape]
    exact strstr_found _ _ (List.prefix_append _ _)
  have hmain : strstr (render (pre ++ JField.boolF (k0 :: k') b :: post))
      ('"' :: ((k0 :: k') ++ '"' :: ':' :: [])) =
      some (('"' :: ((k0 :: k') ++ '"' :: ':' :: [])) ++
        ((if b then "true".data else "false".data) ++ c :: zs)) := by
    unfold render
    cases pre with
    | nil =>
      rw [List.nil_append, List.cons_append, strstr_cons_skip _ _ _
        (fun hp => absurd (List.cons_prefix_cons.mp hp).1 (by decide))]
      exact hfound
    | cons p0 ps =>
      rw [renderFs_append (JField.boolF (k0 :: k') b :: post) (by simp) (p0 :: ps) (by simp),
        List.cons_append,
        strstr_cons_skip _ _ _
          (fun hp => absurd (List.cons_prefix_cons.mp hp).1 (by decide)),
        List.append_assoc, List.cons_append,
        strstr_skip_renderFs (p0 :: ps) _ k' [] k0 hkq hh.1 hh.2 hall]
      exact hfound
  rw [← searchKeyPlain_eq _ hklen] at hmain
  rw [json_get_bool_some _ _ _ dflt hmain]
  cases b
  · rw [if_neg (by simp)]
    have hshape : ("false".data) ++ c :: zs = 'f' :: ("alse".data ++ c :: zs) := rfl
    rw [hshape, List.dropWhile_cons, if_neg (by decide)]
    rw [Bool.eq_false_iff]
    intro hp
    rw [List.isPrefixOf_iff_prefix] at hp
    have hp' : ('t' :: "rue".data) <+: ('f' :: ("alse".data ++ c :: zs)) := hp
    exact absurd (List.cons_prefix_cons.mp hp').1 (by decide)
  · rw [if_pos rfl]
    have hshape : ("true".data) ++ c :: zs = 't' :: ("rue".data ++ c :: zs) := rfl
    rw [hshape, List.dropWhile_cons, if_neg (by decide)]
    rw [List.isPrefixOf_iff_prefix]
    exact List.prefix_append _ _

/-! ### The encoder outputs as rendered field lists -/

lemma fieldOKB_strF (k v : List Char) (hk : '"' ∉ k) (hv : '"' ∉ v) :
    fieldOKB (JField.strF k v) = true := by
  simp [fieldOKB, hk, hv]

lemma fieldOKB_intF (k : List Char) (i : Int) (hk : '"' ∉ k) :
    fieldOKB (JField.intF k i) = true := by
  simp [fieldOKB, hk]

lemma fieldOKB_boolF (k : List Char) (b : Bool) (hk : '"' ∉ k) :
    fieldOKB (JField.boolF k b) = true := by
  simp [fieldOKB, hk]

lemma encodeReady_eq_render (pid : List Char) :
    encodeReady pid =
      render [JField.strF typeKey ("ready".data), JField.strF participantIdKey pid] := by
  simp only [encodeReady, render, renderFs, renderF, typeKey, participantIdKey,
    List.append_assoc, List.cons_append, List.nil_append, List.singleton_append]

lemma encodeState_eq_render (s : PlayerState) :
    encodeState s =
      render [JField.strF typeKey ("state-update".data),
        JField.strF participantIdKey s.participant_id,
        JField.intF tileIndexKey s.tile_index,
        JField.intF elevationKey s.elevation,
        JField.intF rotationKey s.rotation,
        JField.intF currentHpKey s.current_hp,
        JField.intF maxHpKey s.max_hp,
        JField.intF currentApKey s.current_ap,
        JField.intF maxApKey s.max_ap,
        JField.boolF isDeadKey s.is_dead] := by
  simp only [encodeState, render, renderFs, renderF, typeKey, participantIdKey,
    tileIndexKey, elevationKey, rotationKey, currentHpKey, maxHpKey, currentApKey,
    maxApKey, isDeadKey, List.append_assoc, List.cons_append, List.nil_append,
    List.singleton_append]

lemma encodeAction_move_eq_render (a : PlayerAction) (junk : List Char)
    (ht : a.type = moveLit) :
    encodeAction a junk =
      render [JField.strF typeKey ("action".data),
        JField.strF actionKey ("move".data),
        JField.intF targetTileKey a.target_tile] := by
  rw [encodeAction, if_pos ht]
  simp only [render, renderFs, renderF, typeKey, actionKey, targetTileKey,
    List.append_assoc, List.cons_append, List.nil_append, List.singleton_append]

lemma encodeAction_attack_eq_render (a : PlayerAction) (junk : List Char)
    (ht : a.type = attackLit) :
    encodeAction a junk =
      render [JField.strF typeKey ("action".data),
        JField.strF actionKey ("attack".data),
        JField.strF targetIdKey a.target_id,
        JField.strF weaponModeKey a.weapon_mode,
        JField.strF aimedLocationKey a.aimed_location] := by
  rw [encodeAction, if_neg (by rw [ht]; decide), if_pos ht]
  simp only [render, renderFs, renderF, typeKey, actionKey, targetIdKey,
    weaponModeKey, aimedLocationKey, List.append_assoc, List.cons_append,
    List.nil_append, List.singleton_append]

lemma encodeAction_useItem_eq_render (a : PlayerAction) (junk : List Char)
    (ht : a.type = useItemLit) :
    encodeAction a junk =
      render [JField.strF typeKey ("action".data),
        JField.strF actionKey ("use-item".data),
        JField.strF itemIdKey a.item_id,
        JField.strF targetIdKey a.target_id] := by
  rw [encodeAction, if_neg (by rw [ht]; decide), if_neg (by rw [ht]; decide), if_pos ht]
  simp only [render, renderFs, renderF, typeKey, actionKey, itemIdKey, targetIdKey,
    List.append_assoc, List.cons_append, List.nil_append, List.singleton_append]

lemma encodeAction_endTurn_eq_render (a : PlayerAction) (junk : List Char)
    (ht : a.type = endTurnLit) :
    encodeAction a junk =
      render [JField.strF typeKey ("action".data),
        JField.strF actionKey ("end-turn".data)] := by
  rw [encodeAction, if_neg (by rw [ht]; decide), if_neg (by rw [ht]; decide),
    if_neg (by rw [ht]; decide), if_pos ht]
  simp only [render, renderFs, renderF, typeKey, actionKey,
    List.append_assoc, List.cons_append, List.nil_append, List.singleton_append]

/-! ### Length bounds: the snprintf buffers never truncate the payloads -/

lemma natToDigits_length_le (k : Nat) :
    ∀ n, n < 10 ^ k → 1 ≤ k → (natToDigits n).length ≤ k := by
  induction k with
  | zero => intro n h h1; omega
  | succ k ih =>
    intro n h _
    rw [natToDigits]
    split
    · simp
    · next hn =>
      have hk : 1 ≤ k := by
        by_contra hk0
        have hk1 : k = 0 := by omega
        subst hk1
        simp at h
        omega
      have hdiv : n / 10 < 10 ^ k := by
        rw [Nat.div_lt_iff_lt_mul (by omega)]
        rw [pow_succ] at h
        omega
      have := ih (n / 10) hdiv hk
      rw [List.length_append]
      simp only [List.length_singleton]
      omega

lemma intToChars_length_le (i : Int) (h : cIntRange i) :
    (intToChars i).length ≤ 11 := by
  obtain ⟨h1, h2⟩ := h
  have h10 : (10 : Nat) ^ 10 = 10000000000 := by norm_num
  unfold intToChars
  split
  · next hneg =>
    rw [List.length_cons]
    have hlt : i.natAbs < 10 ^ 10 := by rw [h10]; omega
    have := natToDigits_length_le 10 i.natAbs hlt (by omega)
    omega
  · next hpos =>
    have hlt : i.toNat < 10 ^ 10 := by rw [h10]; omega
    have := natToDigits_length_le 10 i.toNat hlt (by omega)
    omega

lemma encodeReady_length_le (pid : List Char) (h : pid.length ≤ 63) :
    (encodeReady pid).length ≤ 255 := by
  simp [encodeReady, List.length_append]
  omega

lemma encodeState_length_le (s : PlayerState) (hlen : s.participant_id.length ≤ 63)
    (h1 : cIntRange s.tile_index) (h2 : cIntRange s.elevation)
    (h3 : cIntRange s.rotation) (h4 : cIntRange s.current_hp)
    (h5 : cIntRange s.max_hp) (h6 : cIntRange s.current_ap)
    (h7 : cIntRange s.max_ap) :
    (encodeState s).length ≤ 511 := by
  have e1 := intToChars_length_le s.tile_index h1
  have e2 := intToChars_length_le s.elevation h2
  have e3 := intToChars_length_le s.rotation h3
  have e4 := intToChars_length_le s.current_hp h4
  have e5 := intToChars_length_le s.max_hp h5
  have e6 := intToChars_length_le s.current_ap h6
  have e7 := intToChars_length_le s.max_ap h7
  have eb : (if s.is_dead = true then ['t', 'r', 'u', 'e']
      else ['f', 'a', 'l', 's', 'e']).length ≤ 5 := by
    cases hd : s.is_dead <;> simp [hd]
  simp [encodeState, List.length_append]
  omega

lemma encodeAction_move_length_le (a : PlayerAction) (junk : List Char)
    (ht : a.type = moveLit) (htile : cIntRange a.target_tile) :
    (encodeAction a junk).length ≤ 511 := by
  have e1 := intToChars_length_le a.target_tile htile
  rw [encodeAction, if_pos ht]
  simp [List.length_append]
  omega

lemma encodeAction_attack_length_le (a : PlayerAction) (junk : List Char)
    (ht : a.type = attackLit) (htid : a.target_id.length ≤ 63)
    (hwm : a.weapon_mode.length ≤ 15) (hal : a.aimed_location.length ≤ 15) :
    (encodeAction a junk).length ≤ 511 := by
  rw [encodeAction, if_neg (by rw [ht]; decide), if_pos ht]
  simp [List.length_append]
  omega

lemma encodeAction_useItem_length_le (a : PlayerAction) (junk : List Char)
    (ht : a.type = useItemLit) (hii : a.item_id.length ≤ 31)
    (htid : a.target_id.length ≤ 63) :
    (encodeAction a junk).length ≤ 511 := by
  rw [encodeAction, if_neg (by rw [ht]; decide), if_neg (by rw [ht]; decide), if_pos ht]
  simp [List.length_append]
  omega

lemma encodeAction_endTurn_length_le (a : PlayerAction) (junk : List Char)
    (ht : a.type = endTurnLit) :
    (encodeAction a junk).length ≤ 511 := by
  rw [encodeAction, if_neg (by rw [ht]; decide), if_neg (by rw [ht]; decide),
    if_neg (by rw [ht]; decide), if_pos ht]
  decide

/-! ### Claim C2: encode/decode round trip -/

/-- C2: for every outbound message kind (ready, state-update, and the four
action variants) and arbitrary valid field values — strings free of quote
characters and within their struct capacities, including the empty string,
and integers in the C `int` range, including 0 and negatives — decoding the
encoded wire frame with the field lookups the inbound path uses recovers
every field the original message carries. -/
theorem C2_encode_decode_roundtrip :
    (∀ pid : List Char, '"' ∉ pid → pid.length ≤ 63 →
      json_get_string ((encodeReady pid).take 255) participantIdKey 64 = some pid) ∧
    (∀ s : PlayerState, '"' ∉ s.participant_id → s.participant_id.length ≤ 63 →
      cIntRange s.tile_index → cIntRange s.elevation → cIntRange s.rotation →
      cIntRange s.current_hp → cIntRange s.max_hp → cIntRange s.current_ap →
      cIntRange s.max_ap →
      json_get_string ((encodeState s).take 511) participantIdKey 64 =
        some s.participant_id ∧
      json_get_int ((encodeState s).take 511) tileIndexKey 0 = s.tile_index ∧
      json_get_int ((encodeState s).take 511) elevationKey 0 = s.elevation ∧
      json_get_int ((encodeState s).take 511) rotationKey 0 = s.rotation ∧
      json_get_int ((encodeState s).take 511) currentHpKey 0 = s.current_hp ∧
      json_get_int ((encodeState s).take 511) maxHpKey 0 = s.max_hp ∧
      json_get_int ((encodeState s).take 511) currentApKey 0 = s.current_ap ∧
      json_get_int ((encodeState s).take 511) maxApKey 0 = s.max_ap ∧
      json_get_bool ((encodeState s).take 511) isDeadKey false = s.is_dead) ∧
    (∀ (a : PlayerAction) (junk : List Char), a.type = moveLit →
      cIntRange a.target_tile →
      json_get_string ((encodeAction a junk).take 511) actionKey 32 = some moveLit ∧
      json_get_int ((encodeAction a junk).take 511) targetTileKey 0 = a.target_tile) ∧
    (∀ (a : PlayerAction) (junk : List Char), a.type = attackLit →
      '"' ∉ a.target_id → a.target_id.length ≤ 63 →
      '"' ∉ a.weapon_mode → a.weapon_mode.length ≤ 15 →
      '"' ∉ a.aimed_location → a.aimed_location.length ≤ 15 →
      json_get_string ((encodeAction a junk).take 511) actionKey 32 = some attackLit ∧
      json_get_string ((encodeAction a junk).take 511) targetIdKey 64 =
        some a.target_id ∧
      json_get_string ((encodeAction a junk).take 511) weaponModeKey 16 =
        some a.weapon_mode ∧
      json_get_string ((encodeAction a junk).take 511) aimedLocationKey 16 =
        some a.aimed_location) ∧
    (∀ (a : PlayerAction) (junk : List Char), a.type = useItemLit →
      '"' ∉ a.item_id → a.item_id.length ≤ 31 →
      '"' ∉ a.target_id → a.target_id.length ≤ 63 →
      json_get_string ((encodeAction a junk).take 511) actionKey 32 = some useItemLit ∧
      json_get_string ((encodeAction a junk).take 511) itemIdKey 32 = some a.item_id ∧
      json_get_string ((encodeAction a junk).take 511) targetIdKey 64 =
        some a.target_id) ∧
    (∀ (a : PlayerAction) (junk : List Char), a.type = endTurnLit →
      json_get_string ((encodeAction a junk).take 511) actionKey 32 =
        some endTurnLit) := by
  refine ⟨?_, ?_, ?_, ?_, ?_, ?_⟩
  · intro pid hq hlen
    rw [List.take_of_length_le (encodeReady_length_le pid hlen), encodeReady_eq_render]
    exact json_get_string_render [JField.strF typeKey ("ready".data)] []
      participantIdKey pid 64 (by decide) (by decide) (by decide) (by decide)
      hq (by omega)
      (by intro f hf
          simp only [List.mem_singleton] at hf
          subst hf
          exact ⟨by decide, by decide⟩)
  · intro s hq hlen h1 h2 h3 h4 h5 h6 h7
    rw [List.take_of_length_le (encodeState_length_le s hlen h1 h2 h3 h4 h5 h6 h7),
      encodeState_eq_render]
    refine ⟨?_, ?_, ?_, ?_, ?_, ?_, ?_, ?_, ?_⟩
    · exact json_get_string_render [JField.strF typeKey ("state-update".data)]
        [JField.intF tileIndexKey s.tile_index,
         JField.intF elevationKey s.elevation,
         JField.intF rotationKey s.rotation,
         JField.intF currentHpKey s.current_hp,
         JField.intF maxHpKey s.max_hp,
         JField.intF currentApKey s.current_ap,
         JField.intF maxApKey s.max_ap,
         JField.boolF isDeadKey s.is_dead]
        participantIdKey s.participant_id 64 (by decide) (by decide) (by decide)
        (by decide) hq (by omega)
        (by intro f hf
            simp only [List.mem_singleton] at hf
            subst hf
            exact ⟨by decide, by decide⟩)
    · exact json_get_int_render
        [JField.strF typeKey ("state-update".data),
         JField.strF participantIdKey s.participant_id]
        [JField.intF elevationKey s.elevation,
         JField.intF rotationKey s.rotation,
         JField.intF currentHpKey s.current_hp,
         JField.intF maxHpKey s.max_hp,
         JField.intF currentApKey s.current_ap,
         JField.intF maxApKey s.max_ap,
         JField.boolF isDeadKey s.is_dead]
        tileIndexKey s.tile_index 0 (by decide) (by decide) (by decide) (by decide)
        (by intro f hf
            simp only [List.mem_cons, List.mem_singleton, List.not_mem_nil,
              or_false] at hf
            rcases hf with rfl | rfl
            · exact ⟨by decide, by decide⟩
            · exact ⟨fieldOKB_strF _ _ (by decide) hq, by simp only [JField.key]; decide⟩)
    · exact json_get_int_render
        [JField.strF typeKey ("state-update".data),
         JField.strF participantIdKey s.participant_id,
         JField.intF tileIndexKey s.tile_index]
        [JField.intF rotationKey s.rotation,
         JField.intF currentHpKey s.current_hp,
         JField.intF maxHpKey s.max_hp,
         JField.intF currentApKey s.current_ap,
         JField.intF maxApKey s.max_ap,
         JField.boolF isDeadKey s.is_dead]
        elevationKey s.elevation 0 (by decide) (by decide) (by decide) (by decide)
        (by intro f hf
            simp only [List.mem_cons, List.mem_singleton, List.not_mem_nil,
              or_false] at hf
            rcases hf with rfl | rfl | rfl
            · exact ⟨by decide, by decide⟩
            · exact ⟨fieldOKB_strF _ _ (by decide) hq, by simp only [JField.key]; decide⟩
            · exact ⟨fieldOKB_intF _ _ (by decide), by simp only [JField.key]; decide⟩)
    · exact json_get_int_render
        [JField.strF typeKey ("state-update".data),
         JField.strF participantIdKey s.participant_id,
         JField.intF tileIndexKey s.tile_index,
         JField.intF elevationKey s.elevation]
        [JField.intF currentHpKey s.current_hp,
         JField.intF maxHpKey s.max_hp,
         JField.intF currentApKey s.current_ap,
         JField.intF maxApKey s.max_ap,
         JField.boolF isDeadKey s.is_dead]
        rotationKey s.rotation 0 (by decide) (by decide) (by decide) (by decide)
        (by intro f hf
            simp only [List.mem_cons, List.mem_singleton, List.not_mem_nil,
              or_false] at hf
            rcases hf with rfl | rfl | rfl | rfl
            · exact ⟨by decide, by decide⟩
            · exact ⟨fieldOKB_strF _ _ (by decide) hq, by simp only [JField.key]; decide⟩
            · exact ⟨fieldOKB_intF _ _ (by decide), by simp only [JField.key]; decide⟩
            · exact ⟨fieldOKB_intF _ _ (by decide), by simp only [JField.key]; decide⟩)
    · exact json_get_int_render
        [JField.strF typeKey ("state-update".data),
         JField.strF participantIdKey s.participant_id,
         JField.intF tileIndexKey s.tile_index,
         JField.intF elevationKey s.elevation,
         JField.intF rotationKey s.rotation]
        [JField.intF maxHpKey s.max_hp,
         JField.intF currentApKey s.current_ap,
         JField.intF maxApKey s.max_ap,
         JField.boolF isDeadKey s.is_dead]
        currentHpKey s.current_hp 0 (by decide) (by decide) (by decide) (by decide)
        (by intro f hf
            simp only [List.mem_cons, List.mem_singleton, List.not_mem_nil,
              or_false] at hf
            rcases hf with rfl | rfl | rfl | rfl | rfl
            · exact ⟨by decide, by decide⟩
            · exact ⟨fieldOKB_strF _ _ (by decide) hq, by simp only [JField.key]; decide⟩
            · exact ⟨fieldOKB_intF _ _ (by decide), by simp only [JField.key]; decide⟩
            · exact ⟨fieldOKB_intF _ _ (by decide), by simp only [JField.key]; decide⟩
            · exact ⟨fieldOKB_intF _ _ (by decide), by simp only [JField.key]; decide⟩)
    · exact json_get_int_render
        [JField.strF typeKey ("state-update".data),
         JField.strF participantIdKey s.participant_id,
         JField.intF tileIndexKey s.tile_index,
         JField.intF elevationKey s.elevation,
         JField.intF rotationKey s.rotation,
         JField.intF currentHpKey s.current_hp]
        [JField.intF currentApKey s.current_ap,
         JField.intF maxApKey s.max_ap,
         JField.boolF isDeadKey s.is_dead]
        maxHpKey s.max_hp 0 (by decide) (by decide) (by decide) (by decide)
        (by intro f hf
            simp only [List.mem_cons, List.mem_singleton, List.not_mem_nil,
              or_false] at hf
            rcases hf with rfl | rfl | rfl | rfl | rfl | rfl
            · exact ⟨by decide, by decide⟩
            · exact ⟨fieldOKB_strF _ _ (by decide) hq, by simp only [JField.key]; decide⟩
            · exact ⟨fieldOKB_intF _ _ (by decide), by simp only [JField.key]; decide⟩
            · exact ⟨fieldOKB_intF _ _ (by decide), by simp only [JField.key]; decide⟩
            · exact ⟨fieldOKB_intF _ _ (by decide), by simp only [JField.key]; decide⟩
            · exact ⟨fieldOKB_intF _ _ (by decide), by simp only [JField.key]; decide⟩)
    · exact json_get_int_render
        [JField.strF typeKey ("state-update".data),
         JField.strF participantIdKey s.participant_id,
         JField.intF tileIndexKey s.tile_index,
         JField.intF elevationKey s.elevation,
         JField.intF rotationKey s.rotation,
         JField.intF currentHpKey s.current_hp,
         JField.intF maxHpKey s.max_hp]
        [JField.intF maxApKey s.max_ap,
         JField.boolF isDeadKey s.is_dead]
        currentApKey s.current_ap 0 (by decide) (by decide) (by decide) (by decide)
        (by intro f hf
            simp only [List.mem_cons, List.mem_singleton, List.not_mem_nil,
              or_false] at hf
            rcases hf with rfl | rfl | rfl | rfl | rfl | rfl | rfl
            · exact ⟨by decide, by decide⟩
            · exact ⟨fieldOKB_strF _ _ (by decide) hq, by simp only [JField.key]; decide⟩
            · exact ⟨fieldOKB_intF _ _ (by decide), by simp only [JField.key]; decide⟩
            · exact ⟨fieldOKB_intF _ _ (by decide), by simp only [JField.key]; decide⟩
            · exact ⟨fieldOKB_intF _ _ (by decide), by simp only [JField.key]; decide⟩
            · exact ⟨fieldOKB_intF _ _ (by decide), by simp only [JField.key]; decide⟩
            · exact ⟨fieldOKB_intF _ _ (by decide), by simp only [JField.key]; decide⟩)
    · exact json_get_int_render
        [JField.strF typeKey ("state-update".data),
         JField.strF participantIdKey s.participant_id,
         JField.intF tileIndexKey s.tile_index,
         JField.intF elevationKey s.elevation,
         JField.intF rotationKey s.rotation,
         JField.intF currentHpKey s.current_hp,
         JField.intF maxHpKey s.max_hp,
         JField.intF currentApKey s.current_ap]
        [JField.boolF isDeadKey s.is_dead]
        maxApKey s.max_ap 0 (by decide) (by decide) (by decide) (by decide)
        (by intro f hf
            simp only [List.mem_cons, List.mem_singleton, List.not_mem_nil,
              or_false] at hf
            rcases hf with rfl | rfl | rfl | rfl | rfl | rfl | rfl | rfl
            · exact ⟨by decide, by decide⟩
            · exact ⟨fieldOKB_strF _ _ (by decide) hq, by simp only [JField.key]; decide⟩
            · exact ⟨fieldOKB_intF _ _ (by decide), by simp only [JField.key]; decide⟩
            · exact ⟨fieldOKB_intF _ _ (by decide), by simp only [JField.key]; decide⟩
            · exact ⟨fieldOKB_intF _ _ (by decide), by simp only [JField.key]; decide⟩
            · exact ⟨fieldOKB_intF _ _ (by decide), by simp only [JField.key]; decide⟩
            · exact ⟨fieldOKB_intF _ _ (by decide), by simp only [JField.key]; decide⟩
            · exact ⟨fieldOKB_intF _ _ (by decide), by simp only [JField.key]; decide⟩)
    · exact json_get_bool_render
        [JField.strF typeKey ("state-update".data),
         JField.strF participantIdKey s.participant_id,
         JField.intF tileIndexKey s.tile_index,
         JField.intF elevationKey s.elevation,
         JField.intF rotationKey s.rotation,
         JField.intF currentHpKey s.current_hp,
         JField.intF maxHpKey s.max_hp,
         JField.intF currentApKey s.current_ap,
         JField.intF maxApKey s.max_ap]
        [] isDeadKey s.is_dead false (by decide) (by decide) (by decide) (by decide)
        (by intro f hf
            simp only [List.mem_cons, List.mem_singleton, List.not_mem_nil,
              or_false] at hf
            rcases hf with rfl | rfl | rfl | rfl | rfl | rfl | rfl | rfl | rfl
            · exact ⟨by decide, by decide⟩
            · exact ⟨fieldOKB_strF _ _ (by decide) hq, by simp only [JField.key]; decide⟩
            · exact ⟨fieldOKB_intF _ _ (by decide), by simp only [JField.key]; decide⟩
            · exact ⟨fieldOKB_intF _ _ (by decide), by simp only [JField.key]; decide⟩
            · exact ⟨fieldOKB_intF _ _ (by decide), by simp only [JField.key]; decide⟩
            · exact ⟨fieldOKB_intF _ _ (by decide), by simp only [JField.key]; decide⟩
            · exact ⟨fieldOKB_intF _ _ (by decide), by simp only [JField.key]; decide⟩
            · exact ⟨fieldOKB_intF _ _ (by decide), by simp only [JField.key]; decide⟩
            · exact ⟨fieldOKB_intF _ _ (by decide), by simp only [JField.key]; decide⟩)
  · intro a junk ht htile
    rw [List.take_of_length_le (encodeAction_move_length_le a junk ht htile),
      encodeAction_move_eq_render a junk ht]
    constructor
    · exact json_get_string_render [JField.strF typeKey ("action".data)]
        [JField.intF targetTileKey a.target_tile] actionKey ("move".data) 32
        (by decide) (by decide) (by decide) (by decide) (by decide) (by decide)
        (by intro f hf
            simp only [List.mem_singleton] at hf
            subst hf
            exact ⟨by decide, by decide⟩)
    · exact json_get_int_render
        [JField.strF typeKey ("action".data), JField.strF actionKey ("move".data)]
        [] targetTileKey a.target_tile 0 (by decide) (by decide) (by decide) (by decide)
        (by intro f hf
            simp only [List.mem_cons, List.mem_singleton, List.not_mem_nil,
              or_false] at hf
            rcases hf with rfl | rfl
            · exact ⟨by decide, by decide⟩
            · exact ⟨by decide, by decide⟩)
  · intro a junk ht hq1 hl1 hq2 hl2 hq3 hl3
    rw [List.take_of_length_le (encodeAction_attack_length_le a junk ht hl1 hl2 hl3),
      encodeAction_attack_eq_render a junk ht]
    refine ⟨?_, ?_, ?_, ?_⟩
    · exact json_get_string_render [JField.strF typeKey ("action".data)]
        [JField.strF targetIdKey a.target_id,
         JField.strF weaponModeKey a.weapon_mode,
         JField.strF aimedLocationKey a.aimed_location]
        actionKey ("attack".data) 32
        (by decide) (by decide) (by decide) (by decide) (by decide) (by decide)
        (by intro f hf
            simp only [List.mem_singleton] at hf
            subst hf
            exact ⟨by decide, by decide⟩)
    · exact json_get_string_render
        [JField.strF typeKey ("action".data), JField.strF actionKey ("attack".data)]
        [JField.strF weaponModeKey a.weapon_mode,
         JField.strF aimedLocationKey a.aimed_location]
        targetIdKey a.target_id 64 (by decide) (by decide) (by decide) (by decide)
        hq1 (by omega)
        (by intro f hf
            simp only [List.mem_cons, List.mem_singleton, List.not_mem_nil,
              or_false] at hf
            rcases hf with rfl | rfl
            · exact ⟨by decide, by decide⟩
            · exact ⟨by decide, by decide⟩)
    · exact json_get_string_render
        [JField.strF typeKey ("action".data), JField.strF actionKey ("attack".data),
         JField.strF targetIdKey a.target_id]
        [JField.strF aimedLocationKey a.aimed_location]
        weaponModeKey a.weapon_mode 16 (by decide) (by decide) (by decide) (by decide)
        hq2 (by omega)
        (by intro f hf
            simp only [List.mem_cons, List.mem_singleton, List.not_mem_nil,
              or_false] at hf
            rcases hf with rfl | rfl | rfl
            · exact ⟨by decide, by decide⟩
            · exact ⟨by decide, by decide⟩
            · exact ⟨fieldOKB_strF _ _ (by decide) hq1, by simp only [JField.key]; decide⟩)
    · exact json_get_string_render
        [JField.strF typeKey ("action".data), JField.strF actionKey ("attack".data),
         JField.strF targetIdKey a.target_id,
         JField.strF weaponModeKey a.weapon_mode]
        [] aimedLocationKey a.aimed_location 16
        (by decide) (by decide) (by decide) (by decide) hq3 (by omega)
        (by intro f hf
            simp only [List.mem_cons, List.mem_singleton, List.not_mem_nil,
              or_false] at hf
            rcases hf with rfl | rfl | rfl | rfl
            · exact ⟨by decide, by decide⟩
            · exact ⟨by decide, by decide⟩
            · exact ⟨fieldOKB_strF _ _ (by decide) hq1, by simp only [JField.key]; decide⟩
            · exact ⟨fieldOKB_strF _ _ (by decide) hq2, by simp only [JField.key]; decide⟩)
  · intro a junk ht hq1 hl1 hq2 hl2
    rw [List.take_of_length_le (encodeAction_useItem_length_le a junk ht hl1 hl2),
      encodeAction_useItem_eq_render a junk ht]
    refine ⟨?_, ?_, ?_⟩
    · exact json_get_string_render [JField.strF typeKey ("action".data)]
        [JField.strF itemIdKey a.item_id, JField.strF targetIdKey a.target_id]
        actionKey ("use-item".data) 32
        (by decide) (by decide) (by decide) (by decide) (by decide) (by decide)
        (by intro f hf
            simp only [List.mem_singleton] at hf
            subst hf
            exact ⟨by decide, by decide⟩)
    · exact json_get_string_render
        [JField.strF typeKey ("action".data), JField.strF actionKey ("use-item".data)]
        [JField.strF targetIdKey a.target_id]
        itemIdKey a.item_id 32 (by decide) (by decide) (by decide) (by decide)
        hq1 (by omega)
        (by intro f hf
            simp only [List.mem_cons, List.mem_singleton, List.not_mem_nil,
              or_false] at hf
            rcases hf with rfl | rfl
            · exact ⟨by decide, by decide⟩
            · exact ⟨by decide, by decide⟩)
    · exact json_get_string_render
        [JField.strF typeKey ("action".data), JField.strF actionKey ("use-item".data),
         JField.strF itemIdKey a.item_id]
        [] targetIdKey a.target_id 64 (by decide) (by decide) (by decide) (by decide)
        hq2 (by omega)
        (by intro f hf
            simp only [List.mem_cons, List.mem_singleton, List.not_mem_nil,
              or_false] at hf
            rcases hf with rfl | rfl | rfl
            · exact ⟨by decide, by decide⟩
            · exact ⟨by decide, by decide⟩
            · exact ⟨fieldOKB_strF _ _ (by decide) hq1, by simp only [JField.key]; decide⟩)
  · intro a junk ht
    rw [List.take_of_length_le (encodeAction_endTurn_length_le a junk ht),
      encodeAction_endTurn_eq_render a junk ht]
    exact json_get_string_render [JField.strF typeKey ("action".data)] []
      actionKey ("end-turn".data) 32
      (by decide) (by decide) (by decide) (by decide) (by decide) (by decide)
      (by intro f hf
          simp only [List.mem_singleton] at hf
          subst hf
          exact ⟨by decide, by decide⟩)

/-- Witness for C2 at concrete inputs: participant id `p1` for the ready
frame, an empty participant id and tile index -7 for the state-update, and
one concrete action of each of the four variants. -/
theorem C2_encode_decode_roundtrip_witness :
    (json_get_string ((encodeReady ("p1".data)).take 255) participantIdKey 64 =
      some ("p1".data)) ∧
    (json_get_int ((encodeState ⟨[], -7, 0, 2, 15, 30, 8, 10, true⟩).take 511)
      tileIndexKey 0 = -7) ∧
    (json_get_int ((encodeAction ⟨"move".data, -3, [], [], [], []⟩ []).take 511)
      targetTileKey 0 = -3) ∧
    (json_get_string ((encodeAction ⟨"attack".data, 0, "p2".data, "burst".data,
      "head".data, []⟩ []).take 511) targetIdKey 64 = some ("p2".data)) ∧
    (json_get_string ((encodeAction ⟨"use-item".data, 0, "p2".data, [], [],
      "stimpak".data⟩ []).take 511) itemIdKey 32 = some ("stimpak".data)) ∧
    (json_get_string ((encodeAction ⟨"end-turn".data, 0, [], [], [], []⟩ []).take 511)
      actionKey 32 = some endTurnLit) :=
  ⟨C2_encode_decode_roundtrip.1 ("p1".data) (by decide) (by decide),
   (C2_encode_decode_roundtrip.2.1 ⟨[], -7, 0, 2, 15, 30, 8, 10, true⟩ (by decide)
     (by decide) ⟨by decide, by decide⟩ ⟨by decide, by decide⟩ ⟨by decide, by decide⟩
     ⟨by decide, by decide⟩ ⟨by decide, by decide⟩ ⟨by decide, by decide⟩
     ⟨by decide, by decide⟩).2.1,
   (C2_encode_decode_roundtrip.2.2.1 ⟨"move".data, -3, [], [], [], []⟩ [] rfl
     ⟨by decide, by decide⟩).2,
   (C2_encode_decode_roundtrip.2.2.2.1 ⟨"attack".data, 0, "p2".data, "burst".data,
     "head".data, []⟩ [] rfl (by decide) (by decide) (by decide) (by decide)
     (by decide) (by decide)).2.1,
   (C2_encode_decode_roundtrip.2.2.2.2.1 ⟨"use-item".data, 0, "p2".data, [], [],
     "stimpak".data⟩ [] rfl (by decide) (by decide) (by decide) (by decide)).2.1,
   C2_encode_decode_roundtrip.2.2.2.2.2 ⟨"end-turn".data, 0, [], [], [], []⟩ [] rfl⟩

/-! ### Relating json_get_string to the untruncated field value -/

lemma json_get_string_eq_raw (json key : List Char) (os : Nat) :
    json_get_string json key os =
      (json_field_raw json key).map (fun v => v.take (os - 1)) := by
  unfold json_get_string json_field_raw
  cases hs : strstr json (searchKeyStr key) with
  | none => rfl
  | some s => split <;> simp

lemma json_get_string_length_le (json key v : List Char) (os : Nat)
    (h1 : 1 ≤ os) (h : json_get_string json key os = some v) :
    v.length ≤ os - 1 := by
  rw [json_get_string_eq_raw] at h
  cases hr : json_field_raw json key with
  | none => rw [hr] at h; cases h
  | some w =>
    rw [hr] at h
    simp at h
    rw [← h, List.length_take]
    exact min_le_left _ _

/-! ### Claim C1: turn-start processing and turn ownership -/

/-- C1: for a frame whose type field decodes to `turn-start` and whose
participantId field decodes to `pid`, processing stores `pid` as the current
turn player, sets the local-turn flag to true exactly when `pid` equals the
session participant id (hence mp_is_my_turn on an active session), and
afterwards mp_get_current_turn_player returns the received id. -/
theorem C1_turn_start_ownership (st : MpState) (json junk pid : List Char)
    (htype : json_get_string json typeKey 32 = some turnStartLit)
    (hpid : json_get_string json participantIdKey 64 = some pid) :
    (process_message st json junk).1.current_turn_player = pid ∧
    ((process_message st json junk).1.is_my_turn = true ↔
      pid = st.participant_id) ∧
    (st.mp_active = true →
      (mp_is_my_turn (process_message st json junk).1 = true ↔
        pid = st.participant_id)) ∧
    (pid ≠ [] →
      mp_get_current_turn_player (process_message st json junk).1 = some pid) := by
  have hlen : pid.length ≤ 63 := by
    have := json_get_string_length_le json participantIdKey pid 64 (by omega) hpid
    omega
  refine ⟨?_, ?_, ?_, ?_⟩
  · simp [process_message, htype, hpid, List.take_of_length_le hlen]
  · simp [process_message, htype, hpid]
  · intro ha
    simp [process_message, mp_is_my_turn, htype, hpid, ha]
  · intro hne
    simp [process_message, mp_get_current_turn_player, htype, hpid,
      List.take_of_length_le hlen, hne]

/-- Witness for C1: on an active session with local id `p1`, a turn-start
carrying `p1` yields a true local-turn flag, one carrying `p2` yields a
false flag; both store the received id. -/
theorem C1_turn_start_ownership_witness :
    ((process_message ⟨true, "p1".data, "s1".data, [], [], false, true⟩
        ("\x7b\"type\":\"turn-start\",\"participantId\":\"p1\"\x7d".data)
        []).1.current_turn_player = "p1".data ∧
      ((process_message ⟨true, "p1".data, "s1".data, [], [], false, true⟩
        ("\x7b\"type\":\"turn-start\",\"participantId\":\"p1\"\x7d".data)
        []).1.is_my_turn = true ↔ "p1".data = "p1".data) ∧
      ((⟨true, "p1".data, "s1".data, [], [], false, true⟩ : MpState).mp_active = true →
        (mp_is_my_turn (process_message ⟨true, "p1".data, "s1".data, [], [], false, true⟩
          ("\x7b\"type\":\"turn-start\",\"participantId\":\"p1\"\x7d".data)
          []).1 = true ↔ "p1".data = "p1".data)) ∧
      ("p1".data ≠ [] →
        mp_get_current_turn_player
          (process_message ⟨true, "p1".data, "s1".data, [], [], false, true⟩
            ("\x7b\"type\":\"turn-start\",\"participantId\":\"p1\"\x7d".data)
            []).1 = some ("p1".data))) ∧
    ((process_message ⟨true, "p1".data, "s1".data, [], [], false, true⟩
        ("\x7b\"type\":\"turn-start\",\"participantId\":\"p2\"\x7d".data)
        []).1.current_turn_player = "p2".data ∧
      ((process_message ⟨true, "p1".data, "s1".data, [], [], false, true⟩
        ("\x7b\"type\":\"turn-start\",\"participantId\":\"p2\"\x7d".data)
        []).1.is_my_turn = true ↔ "p2".data = "p1".data) ∧
      ((⟨true, "p1".data, "s1".data, [], [], false, true⟩ : MpState).mp_active = true →
        (mp_is_my_turn (process_message ⟨true, "p1".data, "s1".data, [], [], false, true⟩
          ("\x7b\"type\":\"turn-start\",\"participantId\":\"p2\"\x7d".data)
          []).1 = true ↔ "p2".data = "p1".data)) ∧
      ("p2".data ≠ [] →
        mp_get_current_turn_player
          (process_message ⟨true, "p1".data, "s1".data, [], [], false, true⟩
            ("\x7b\"type\":\"turn-start\",\"participantId\":\"p2\"\x7d".data)
            []).1 = some ("p2".data))) :=
  ⟨C1_turn_start_ownership _ _ _ _ (by decide) (by decide),
   C1_turn_start_ownership _ _ _ _ (by decide) (by decide)⟩

/-! ### Claim C5: unknown message types are ignored -/

/-- C5: a frame whose type field is absent (the zero-initialized buffer
yields the empty string) or decodes to anything outside turn-start,
remote-action and player-state leaves the state unchanged and dispatches to
no handler; process_message is a total function, so no error is raised and
the poll loop is never terminated by such a frame. -/
theorem C5_unknown_type_ignored (st : MpState) (json junk : List Char)
    (h1 : (json_get_string json typeKey 32).getD [] ≠ turnStartLit)
    (h2 : (json_get_string json typeKey 32).getD [] ≠ remoteActionLit)
    (h3 : (json_get_string json typeKey 32).getD [] ≠ playerStateLit) :
    process_message st json junk = (st, none) := by
  unfold process_message
  simp [h1, h2, h3]

/-- Witness for C5: a frame with type `bogus` dispatches nothing and leaves
the turn state exactly as it was. -/
theorem C5_unknown_type_ignored_witness :
    process_message ⟨true, "p1".data, "s1".data, [], "p2".data, true, true⟩
      ("\x7b\"type\":\"bogus\"\x7d".data) [] =
    (⟨true, "p1".data, "s1".data, [], "p2".data, true, true⟩, none) :=
  C5_unknown_type_ignored _ _ _ (by decide) (by decide) (by decide)

/-! ### Claim C6: the boolean field lookup -/

/-- C6 counterexample: with frame text `"isDead":false`, key `isDead` and
caller-supplied default `true`, the key pattern is present and the value
does not start with the literal `true`, yet json_get_bool returns `false`
rather than the caller-supplied default, refuting the claim that every case
other than a present leading `true` yields the default. -/
theorem C6_bool_lookup_counterexample :
    (∃ s, strstr ("\"isDead\":false".data) (searchKeyPlain isDeadKey) = some s ∧
      ("true".data).isPrefixOf
        ((s.drop (searchKeyPlain isDeadKey).length).dropWhile (fun c => c = ' '))
        = false) ∧
    json_get_bool ("\"isDead\":false".data) isDeadKey true = false ∧
    true ≠ false :=
  ⟨⟨"\"isDead\":false".data, by decide, by decide⟩, by decide, by decide⟩

/-- C6 (amended): json_get_bool returns true exactly when either the key
pattern `"<key>":` is present and the value after it, spaces skipped,
starts with the literal `true`, or the pattern is absent and the default is
true.  When the pattern is absent the caller-supplied default is returned;
when the pattern is present and the value does not start with `true` the
result is `false` regardless of the default. -/
theorem C6_bool_lookup_amended (json key : List Char) (dflt : Bool) :
    (json_get_bool json key dflt = true ↔
      (∃ s, strstr json (searchKeyPlain key) = some s ∧
        ("true".data).isPrefixOf
          ((s.drop (searchKeyPlain key).length).dropWhile (fun c => c = ' '))
          = true) ∨
      (strstr json (searchKeyPlain key) = none ∧ dflt = true)) ∧
    (strstr json (searchKeyPlain key) = none → json_get_bool json key dflt = dflt) ∧
    (∀ s, strstr json (searchKeyPlain key) = some s →
      json_get_bool json key dflt =
        ("true".data).isPrefixOf
          ((s.drop (searchKeyPlain key).length).dropWhile (fun c => c = ' '))) := by
  refine ⟨?_, ?_, ?_⟩
  · unfold json_get_bool
    cases h : strstr json (searchKeyPlain key) with
    | none => simp [h]
    | some s => simp [h]
  · intro h
    unfold json_get_bool
    rw [h]
  · intro s h
    unfold json_get_bool
    rw [h]

/-! ### Claim C7: sends when not connected and on write failure -/

/-- C7 counterexample: on an active session with a valid pipe, the
caller-visible outcome of mp_send_state is identical whether the underlying
WriteFile succeeds or fails: the send functions are void, discard
send_message's boolean result, and so never report false (or anything) to
the caller. -/
theorem C7_send_result_counterexample :
    mp_send_state ⟨true, "p1".data, "s1".data, [], [], false, true⟩ true
      (some ⟨"p1".data, 1, 0, 2, 10, 10, 5, 5, false⟩) =
    mp_send_state ⟨true, "p1".data, "s1".data, [], [], false, true⟩ false
      (some ⟨"p1".data, 1, 0, 2, 10, 10, 5, 5, false⟩) := rfl

/-- C7 (amended): when the layer is not active (or the argument is NULL),
mp_send_state and mp_send_action perform no write and no state change; the
internal send_message returns false when the pipe handle is invalid and
when the write fails, with no retry and no queueing; the senders themselves
are void, so this boolean is not propagated to the caller. -/
theorem C7_send_inactive (st : MpState) (w : Bool)
    (s : Option PlayerState) (a : Option PlayerAction) (junk j : List Char)
    (h : st.mp_active = false) :
    mp_send_state st w s = (st, none) ∧
    mp_send_action st w junk a = (st, none) ∧
    (st.pipe_valid = false → send_message st w j = (false, none)) ∧
    (send_message st false j).1 = false := by
  refine ⟨?_, ?_, fun hp => ?_, ?_⟩
  · cases s with
    | none => rfl
    | some s0 => simp [mp_send_state, h]
  · cases a with
    | none => rfl
    | some a0 => simp [mp_send_action, h]
  · simp [send_message, hp]
  · unfold send_message
    split <;> rfl

/-- Witness for C7: a concrete inactive state with a concrete state and
action payload; nothing is written and the state is untouched. -/
theorem C7_send_inactive_witness :
    mp_send_state ⟨false, "p1".data, "s1".data, [], [], false, false⟩ true
      (some ⟨"p1".data, 1, 0, 2, 10, 10, 5, 5, false⟩) =
      (⟨false, "p1".data, "s1".data, [], [], false, false⟩, none) ∧
    mp_send_action ⟨false, "p1".data, "s1".data, [], [], false, false⟩ true []
      (some ⟨"move".data, 3, [], [], [], []⟩) =
      (⟨false, "p1".data, "s1".data, [], [], false, false⟩, none) ∧
    send_message ⟨false, "p1".data, "s1".data, [], [], false, false⟩ true
      ("x".data) = (false, none) ∧
    (send_message ⟨false, "p1".data, "s1".data, [], [], false, false⟩ false
      ("x".data)).1 = false := by
  have h := C7_send_inactive ⟨false, "p1".data, "s1".data, [], [], false, false⟩ true
    (some ⟨"p1".data, 1, 0, 2, 10, 10, 5, 5, false⟩)
    (some ⟨"move".data, 3, [], [], [], []⟩) [] ("x".data) rfl
  exact ⟨h.1, h.2.1, h.2.2.1 rfl, (C7_send_inactive _ false none none [] ("x".data)
    rfl).2.2.2⟩

/-! ### Claim C8: mp_exit is idempotent and safe when never connected -/

/-- C8: calling mp_exit twice leaves the state identical to calling it
once, the second call performs no transport operation, and when no
connection was ever established (active flag and pipe handle both clear,
which mp_init guarantees for a session that never connected) mp_exit
performs no transport operation and leaves the whole state unchanged, the
active flag in particular remaining false. -/
theorem C8_exit_idempotent (st : MpState) :
    (mp_exit (mp_exit st).1).1 = (mp_exit st).1 ∧
    (mp_exit (mp_exit st).1).2 = false ∧
    (st.mp_active = false ∧ st.pipe_valid = false → mp_exit st = (st, false)) := by
  unfold mp_exit disconnect_pipe
  by_cases ha : st.mp_active <;> by_cases hp : st.pipe_valid <;> simp [ha, hp]

/-- Witness for C8: a state that was never connected; exiting twice equals
exiting once, and a single exit is a complete no-op. -/
theorem C8_exit_idempotent_witness :
    (mp_exit (mp_exit ⟨false, "p1".data, "s1".data, [], [], true, false⟩).1).1 =
      (mp_exit ⟨false, "p1".data, "s1".data, [], [], true, false⟩).1 ∧
    (mp_exit (mp_exit ⟨false, "p1".data, "s1".data, [], [], true, false⟩).1).2 =
      false ∧
    mp_exit ⟨false, "p1".data, "s1".data, [], [], true, false⟩ =
      (⟨false, "p1".data, "s1".data, [], [], true, false⟩, false) := by
  have h := C8_exit_idempotent ⟨false, "p1".data, "s1".data, [], [], true, false⟩
  exact ⟨h.1, h.2.1, h.2.2 ⟨rfl, rfl⟩⟩

/-! ### Claim C9: mp_is_my_turn is gated on the active flag -/

/-- C9: whenever the session is not active, mp_is_my_turn returns false even
if the internal turn flag is still true; mp_exit clears the active flag but
does not touch the turn flag, so after mp_exit the query reads false while
the stored flag survives unchanged. -/
theorem C9_is_my_turn_gated (st : MpState) :
    (st.mp_active = false → mp_is_my_turn st = false) ∧
    mp_is_my_turn (mp_exit st).1 = false ∧
    ((mp_exit st).1).is_my_turn = st.is_my_turn ∧
    ((mp_exit st).1).mp_active = false := by
  refine ⟨fun h => by simp [mp_is_my_turn, h], ?_, ?_, ?_⟩
  · unfold mp_is_my_turn mp_exit disconnect_pipe
    by_cases ha : st.mp_active <;> by_cases hp : st.pipe_valid <;> simp [ha, hp]
  · unfold mp_exit disconnect_pipe
    by_cases ha : st.mp_active <;> by_cases hp : st.pipe_valid <;> simp [ha, hp]
  · unfold mp_exit disconnect_pipe
    by_cases ha : st.mp_active <;> by_cases hp : st.pipe_valid <;> simp [ha, hp]

/-- Witness for C9: an inactive state whose internal turn flag is true still
answers false to mp_is_my_turn, and exiting an active state with a true
flag clears only the gate, not the flag. -/
theorem C9_is_my_turn_gated_witness :
    ((⟨false, "p1".data, "s1".data, [], "p1".data, true, false⟩ : MpState).mp_active
      = false ∧
     mp_is_my_turn ⟨false, "p1".data, "s1".data, [], "p1".data, true, false⟩ =
      false) ∧
    mp_is_my_turn
      (mp_exit ⟨true, "p1".data, "s1".data, [], "p1".data, true, true⟩).1 = false ∧
    ((mp_exit ⟨true, "p1".data, "s1".data, [], "p1".data, true, true⟩).1).is_my_turn
      = true ∧
    ((mp_exit ⟨true, "p1".data, "s1".data, [], "p1".data, true, true⟩).1).mp_active
      = false :=
  ⟨⟨rfl, (C9_is_my_turn_gated _).1 rfl⟩,
   (C9_is_my_turn_gated ⟨true, "p1".data, "s1".data, [], "p1".data, true, true⟩).2.1,
   (C9_is_my_turn_gated ⟨true, "p1".data, "s1".data, [], "p1".data, true, true⟩).2.2.1,
   (C9_is_my_turn_gated ⟨true, "p1".data, "s1".data, [], "p1".data, true, true⟩).2.2.2⟩

/-! ### Frame reader lemmas -/

lemma msgFeedStep_acc (buf : List Char) (fs : List (List Char)) (c : Char) :
    msgFeedStep (buf, fs) c =
      ((msgFeedStep (buf, []) c).1, fs ++ (msgFeedStep (buf, []) c).2) := by
  by_cases h1 : c = '\n' <;> by_cases h2 : buf = [] <;>
    by_cases h3 : buf.length < 4095 <;>
    simp [msgFeedStep, MSG_BUFFER_SIZE, h1, h2, h3]

lemma msgFeed_acc (input : List Char) :
    ∀ (buf : List Char) (fs : List (List Char)),
      input.foldl msgFeedStep (buf, fs) =
        ((input.foldl msgFeedStep (buf, [])).1,
          fs ++ (input.foldl msgFeedStep (buf, [])).2) := by
  induction input with
  | nil => intro buf fs; simp
  | cons c cs ih =>
    intro buf fs
    rw [List.foldl_cons, List.foldl_cons, msgFeedStep_acc,
      ih (msgFeedStep (buf, []) c).1 (fs ++ (msgFeedStep (buf, []) c).2),
      ih (msgFeedStep (buf, []) c).1 (msgFeedStep (buf, []) c).2]
    simp [List.append_assoc]

lemma msgFeed_append (buf a b : List Char) :
    msgFeed buf (a ++ b) =
      ((msgFeed (msgFeed buf a).1 b).1,
        (msgFeed buf a).2 ++ (msgFeed (msgFeed buf a).1 b).2) := by
  unfold msgFeed
  rw [List.foldl_append]
  have h := msgFeed_acc b (List.foldl msgFeedStep (buf, []) a).1
    (List.foldl msgFeedStep (buf, []) a).2
  calc List.foldl msgFeedStep (List.foldl msgFeedStep (buf, []) a) b
      = List.foldl msgFeedStep ((List.foldl msgFeedStep (buf, []) a).1,
          (List.foldl msgFeedStep (buf, []) a).2) b := by rw [Prod.mk.eta]
    _ = _ := by rw [h]

lemma msgFeedAll_acc (chunks : List (List Char)) :
    ∀ (buf : List Char) (fs : List (List Char)),
      chunks.foldl (fun acc ch =>
        let r := msgFeed acc.1 ch
        (r.1, acc.2 ++ r.2)) (buf, fs) =
      ((msgFeedAll buf chunks).1, fs ++ (msgFeedAll buf chunks).2) := by
  induction chunks with
  | nil => intro buf fs; simp [msgFeedAll]
  | cons ch chs ih =>
    intro buf fs
    unfold msgFeedAll
    rw [List.foldl_cons, List.foldl_cons]
    simp only []
    rw [ih (msgFeed buf ch).1 (fs ++ (msgFeed buf ch).2),
      ih (msgFeed buf ch).1 ([] ++ (msgFeed buf ch).2)]
    simp [List.append_assoc]

lemma msgFeedAll_eq_flatten (chunks : List (List Char)) :
    ∀ buf : List Char, msgFeedAll buf chunks = msgFeed buf chunks.flatten := by
  induction chunks with
  | nil => intro buf; rfl
  | cons ch chs ih =>
    intro buf
    unfold msgFeedAll
    rw [List.foldl_cons]
    simp only []
    rw [msgFeedAll_acc chs (msgFeed buf ch).1 ([] ++ (msgFeed buf ch).2),
      List.flatten_cons, msgFeed_append, ih (msgFeed buf ch).1]
    simp

lemma msgFeed_no_newline (frame : List Char) :
    ∀ buf : List Char, '\n' ∉ frame → buf.length + frame.length ≤ 4095 →
      msgFeed buf frame = (buf ++ frame, []) := by
  induction frame with
  | nil => intro buf _ _; simp [msgFeed]
  | cons c cs ih =>
    intro buf hn hl
    have hc : c ≠ '\n' := fun h => hn (by simp [h])
    have hlt : buf.length < MSG_BUFFER_SIZE - 1 := by
      show buf.length < 4096 - 1
      simp only [List.length_cons] at hl
      omega
    have hstep : msgFeedStep (buf, []) c = (buf ++ [c], []) := by
      unfold msgFeedStep
      rw [if_neg hc, if_pos hlt]
    unfold msgFeed
    rw [List.foldl_cons, hstep]
    have h2 := ih (buf ++ [c]) (fun h => hn (List.mem_cons_of_mem _ h))
      (by simp only [List.length_append, List.length_cons, List.length_nil,
            List.length_singleton] at hl ⊢; omega)
    unfold msgFeed at h2
    rw [h2]
    simp

lemma msgFeed_frame (frame : List Char) (hn : '\n' ∉ frame) (hne : frame ≠ [])
    (hl : frame.length ≤ 4095) :
    msgFeed [] (frame ++ ['\n']) = ([], [frame]) := by
  rw [msgFeed_append]
  rw [msgFeed_no_newline frame [] hn (by simpa using hl)]
  simp only [List.nil_append]
  have h1 : msgFeed frame ['\n'] = ([], [frame]) := by
    simp [msgFeed, msgFeedStep, hne]
  rw [h1]

/-! ### Claim C3: order-preserving, chunk-invariant frame extraction -/

/-- C3: feeding `A\nB\nC\n` in one call emits exactly the frames A, B, C in
order; feeding `A\nB\n` then `C` then `\n` emits A and B on the first call,
nothing on the second (the undelimited `C` is retained), and C on the
third; a zero-length frame (two consecutive delimiters) is skipped; and the
bytes of one frame split across arbitrarily many chunk boundaries yield
exactly one emitted frame equal to the unsplit frame. -/
theorem C3_frame_extraction :
    (msgFeed [] ("A\nB\nC\n".data) = ([], ["A".data, "B".data, "C".data])) ∧
    (msgFeed [] ("A\nB\n".data) = ([], ["A".data, "B".data]) ∧
      msgFeed [] ("C".data) = ("C".data, []) ∧
      msgFeed ("C".data) ("\n".data) = ([], ["C".data])) ∧
    (msgFeed [] ("A\n\nB\n".data) = ([], ["A".data, "B".data])) ∧
    (∀ (frame : List Char) (chunks : List (List Char)),
      '\n' ∉ frame → frame ≠ [] → frame.length ≤ 4095 →
      chunks.flatten = frame ++ ['\n'] →
      msgFeedAll [] chunks = ([], [frame])) := by
  refine ⟨by decide, ⟨by decide, by decide, by decide⟩, by decide, ?_⟩
  intro frame chunks hn hne hl hj
  rw [msgFeedAll_eq_flatten, hj]
  exact msgFeed_frame frame hn hne hl

/-- Witness for C3: the frame `ABCD` split across three chunks is
reassembled into the single frame `ABCD`. -/
theorem C3_frame_extraction_witness :
    '\n' ∉ ("ABCD".data) ∧ ("ABCD".data ≠ []) ∧ ("ABCD".data).length ≤ 4095 ∧
    (["AB".data, "C".data, "D\n".data] : List (List Char)).flatten =
      "ABCD".data ++ ['\n'] ∧
    msgFeedAll [] ["AB".data, "C".data, "D\n".data] = ([], ["ABCD".data]) :=
  ⟨by decide, by decide, by decide, by decide,
   C3_frame_extraction.2.2.2 ("ABCD".data) ["AB".data, "C".data, "D\n".data]
     (by decide) (by decide) (by decide) (by decide)⟩

/-! ### Claim C4: the frame buffer never exceeds its capacity -/

lemma msgFeedStep_bounded (acc : List Char × List (List Char)) (c : Char)
    (hb : acc.1.length ≤ 4095) (hf : ∀ f ∈ acc.2, f.length ≤ 4095) :
    (msgFeedStep acc c).1.length ≤ 4095 ∧
    ∀ f ∈ (msgFeedStep acc c).2, f.length ≤ 4095 := by
  unfold msgFeedStep
  by_cases h1 : c = '\n'
  · rw [if_pos h1]
    by_cases h2 : acc.1 = []
    · rw [if_pos h2]
      exact ⟨by simp, hf⟩
    · rw [if_neg h2]
      refine ⟨by simp, ?_⟩
      intro f hfm
      rw [List.mem_append] at hfm
      rcases hfm with hfm | hfm
      · exact hf f hfm
      · simp only [List.mem_singleton] at hfm
        subst hfm
        exact hb
  · rw [if_neg h1]
    by_cases h3 : acc.1.length < MSG_BUFFER_SIZE - 1
    · rw [if_pos h3]
      have h3' : acc.1.length < 4095 := h3
      refine ⟨?_, hf⟩
      simp only [List.length_append, List.length_singleton]
      omega
    · rw [if_neg h3]
      exact ⟨hb, hf⟩

lemma msgFeed_invariant (input : List Char) :
    ∀ acc : List Char × List (List Char),
      acc.1.length ≤ 4095 → (∀ f ∈ acc.2, f.length ≤ 4095) →
      (input.foldl msgFeedStep acc).1.length ≤ 4095 ∧
      ∀ f ∈ (input.foldl msgFeedStep acc).2, f.length ≤ 4095 := by
  induction input with
  | nil => intro acc hb hf; exact ⟨hb, hf⟩
  | cons c cs ih =>
    intro acc hb hf
    rw [List.foldl_cons]
    have hstep := msgFeedStep_bounded acc c hb hf
    exact ih (msgFeedStep acc c) hstep.1 hstep.2

/-- C4: the receive buffer length never exceeds MSG_BUFFER_SIZE - 1 = 4095
(so the 4096-byte buffer, terminator included, never overflows), every
emitted frame is likewise capped at 4095 bytes; a byte arriving on a full
buffer before a delimiter is silently discarded, changing nothing; and a
delimiter always resets the buffer to empty, so subsequent frames are
unaffected by an earlier overlong frame. -/
theorem C4_buffer_capacity :
    (∀ buf input : List Char, buf.length ≤ 4095 →
      (msgFeed buf input).1.length ≤ 4095 ∧
      ∀ f ∈ (msgFeed buf input).2, f.length ≤ 4095) ∧
    (∀ (buf : List Char) (fs : List (List Char)) (c : Char),
      buf.length = 4095 → c ≠ '\n' → msgFeedStep (buf, fs) c = (buf, fs)) ∧
    (∀ buf input : List Char, (msgFeed buf (input ++ ['\n'])).1 = []) := by
  refine ⟨?_, ?_, ?_⟩
  · intro buf input hb
    exact msgFeed_invariant input (buf, []) hb (by simp)
  · intro buf fs c hb hc
    unfold msgFeedStep MSG_BUFFER_SIZE
    rw [if_neg hc, if_neg (by dsimp only; omega)]
  · intro buf input
    rw [msgFeed_append]
    have : ∀ b : List Char, (msgFeed b ['\n']).1 = [] := by
      intro b
      by_cases hb : b = [] <;> simp [msgFeed, msgFeedStep, hb]
    exact this _

/-- Witness for C4: a full 4095-byte buffer discards an incoming `B`; a
short feed respects the bound; and a trailing newline empties the buffer. -/
theorem C4_buffer_capacity_witness :
    ((List.replicate 4095 'A').length ≤ 4095 ∧
      (msgFeed (List.replicate 4095 'A') ("XY".data)).1.length ≤ 4095 ∧
      ∀ f ∈ (msgFeed (List.replicate 4095 'A') ("XY".data)).2,
        f.length ≤ 4095) ∧
    msgFeedStep (List.replicate 4095 'A', []) 'B' =
      (List.replicate 4095 'A', []) ∧
    (msgFeed ("QQ".data) ("R\n".data)).1 = [] := by
  have h1 := C4_buffer_capacity.1 (List.replicate 4095 'A') ("XY".data)
    (by rw [List.length_replicate])
  exact ⟨⟨by rw [List.length_replicate], h1⟩,
    C4_buffer_capacity.2.1 (List.replicate 4095 'A') [] 'B'
      (by rw [List.length_replicate]) (by decide),
    C4_buffer_capacity.2.2 ("QQ".data) ("R".data)⟩

/-! ### Claim C10: string fields are truncated to their destination size -/

/-- C10: every string field extracted from an inbound frame is truncated to
its destination capacity: json_get_string yields the raw located value cut
to out_size - 1 characters, so every extracted value obeys that length
bound; for a turn-start frame the participant id is cut to 63 characters
and that cut value is exactly what the ownership comparison, the stored
current-turn id and the dispatched handler observe; for a remote-action
frame the dispatched action carries each string field cut to its struct
capacity (31 for the action type and item id, 63 for the target id, 15 for
the weapon mode and aimed location). -/
theorem C10_string_truncation :
    (∀ (json key : List Char) (os : Nat), 1 ≤ os →
      json_get_string json key os =
        (json_field_raw json key).map (fun v => v.take (os - 1))) ∧
    (∀ (json key v : List Char) (os : Nat), 1 ≤ os →
      json_get_string json key os = some v → v.length ≤ os - 1) ∧
    (∀ (st : MpState) (json junk full : List Char),
      json_get_string json typeKey 32 = some turnStartLit →
      json_field_raw json participantIdKey = some full →
      (process_message st json junk).1.current_turn_player = full.take 63 ∧
      ((process_message st json junk).1.is_my_turn = true ↔
        full.take 63 = st.participant_id) ∧
      (process_message st json junk).2 =
        some (DispatchEvent.turnStart (full.take 63)
          (json_get_int json timeLimitKey 30))) ∧
    (∀ (st : MpState) (json junk : List Char),
      json_get_string json typeKey 32 = some remoteActionLit →
      (process_message st json junk).2 =
        some (DispatchEvent.remoteAction
          { type := ((json_field_raw json actionKey).map
              (fun v => v.take 31)).getD []
            target_tile := json_get_int json targetTileKey 0
            target_id := ((json_field_raw json targetIdKey).map
              (fun v => v.take 63)).getD []
            weapon_mode := ((json_field_raw json weaponModeKey).map
              (fun v => v.take 15)).getD []
            aimed_location := ((json_field_raw json aimedLocationKey).map
              (fun v => v.take 15)).getD []
            item_id := ((json_field_raw json itemIdKey).map
              (fun v => v.take 31)).getD [] })) := by
  refine ⟨?_, ?_, ?_, ?_⟩
  · intro json key os _
    exact json_get_string_eq_raw json key os
  · intro json key v os h1 h2
    exact json_get_string_length_le json key v os h1 h2
  · intro st json junk full htype hraw
    have hs : json_get_string json participantIdKey 64 = some (full.take 63) := by
      rw [json_get_string_eq_raw, hraw]
      rfl
    refine ⟨?_, ?_, ?_⟩
    · simp [process_message, htype, hs, List.take_take]
    · simp [process_message, htype, hs]
    · simp [process_message, htype, hs]
  · intro st json junk htype
    have hne1 : (json_get_string json typeKey 32).getD [] ≠ turnStartLit := by
      rw [htype]; decide
    have heq : (json_get_string json typeKey 32).getD [] = remoteActionLit := by
      rw [htype]; rfl
    unfold process_message
    rw [if_neg hne1, if_pos heq]
    simp only [json_get_string_eq_raw]

/-- Witness for C10: a 17-character weapon mode is cut to 15 characters; a
70-character participant id is cut to 63 characters before it is stored,
compared and dispatched. -/
theorem C10_string_truncation_witness :
    (json_get_string ("\"weaponMode\":\"0123456789ABCDEFG\"".data) weaponModeKey 16 =
      (json_field_raw ("\"weaponMode\":\"0123456789ABCDEFG\"".data)
        weaponModeKey).map (fun v => v.take 15)) ∧
    (("0123456789ABCDE".data).length ≤ 15) ∧
    ((process_message ⟨true, "p1".data, "s1".data, [], [], false, true⟩
        ("\x7b\"type\":\"turn-start\",\"participantId\":\"AAAAAAAAAAAAAAAAAAAAAAAAAAAAAAAAAAAAAAAAAAAAAAAAAAAAAAAAAAAAAAAAAAAAAA\"\x7d".data)
        []).1.current_turn_player = ("AAAAAAAAAAAAAAAAAAAAAAAAAAAAAAAAAAAAAAAAAAAAAAAAAAAAAAAAAAAAAAAAAAAAAA".data).take 63 ∧
      ((process_message ⟨true, "p1".data, "s1".data, [], [], false, true⟩
        ("\x7b\"type\":\"turn-start\",\"participantId\":\"AAAAAAAAAAAAAAAAAAAAAAAAAAAAAAAAAAAAAAAAAAAAAAAAAAAAAAAAAAAAAAAAAAAAAA\"\x7d".data)
        []).1.is_my_turn = true ↔ ("AAAAAAAAAAAAAAAAAAAAAAAAAAAAAAAAAAAAAAAAAAAAAAAAAAAAAAAAAAAAAAAAAAAAAA".data).take 63 = "p1".data) ∧
      (process_message ⟨true, "p1".data, "s1".data, [], [], false, true⟩
        ("\x7b\"type\":\"turn-start\",\"participantId\":\"AAAAAAAAAAAAAAAAAAAAAAAAAAAAAAAAAAAAAAAAAAAAAAAAAAAAAAAAAAAAAAAAAAAAAA\"\x7d".data)
        []).2 =
        some (DispatchEvent.turnStart (("AAAAAAAAAAAAAAAAAAAAAAAAAAAAAAAAAAAAAAAAAAAAAAAAAAAAAAAAAAAAAAAAAAAAAA".data).take 63)
          (json_get_int
            ("\x7b\"type\":\"turn-start\",\"participantId\":\"AAAAAAAAAAAAAAAAAAAAAAAAAAAAAAAAAAAAAAAAAAAAAAAAAAAAAAAAAAAAAAAAAAAAAA\"\x7d".data)
            timeLimitKey 30))) :=
  ⟨C10_string_truncation.1 ("\"weaponMode\":\"0123456789ABCDEFG\"".data)
      weaponModeKey 16 (by omega),
   C10_string_truncation.2.1 ("\"weaponMode\":\"0123456789ABCDEFG\"".data)
      weaponModeKey ("0123456789ABCDE".data) 16 (by omega) (by decide),
   C10_string_truncation.2.2.1 ⟨true, "p1".data, "s1".data, [], [], false, true⟩
      ("\x7b\"type\":\"turn-start\",\"participantId\":\"AAAAAAAAAAAAAAAAAAAAAAAAAAAAAAAAAAAAAAAAAAAAAAAAAAAAAAAAAAAAAAAAAAAAAA\"\x7d".data) []
      ("AAAAAAAAAAAAAAAAAAAAAAAAAAAAAAAAAAAAAAAAAAAAAAAAAAAAAAAAAAAAAAAAAAAAAA".data) (by decide) (by decide)⟩

end Multiplayer
